import Mathlib

set_option maxHeartbeats 1000000

/-!
Verification of the `dictator` structured-data validation library
(`src/dictator.py`, Python 2) against its natural-language specification.

The embedding below translates the source faithfully:

* Python unicode strings are `List Char` (`PyStr`).
* Python values handled by the library (`None`, booleans, strings, ints,
  dates, datetimes, lists, dicts) are the inductive `Val`; `Val.vnone` is
  Python `None`.  Dict keys in the library are either unicode strings or
  `None` (a schema type's `name` attribute defaults to `None`), hence map
  keys are `Option PyStr`.
* Raw input data (what a schema type is invoked with) is `Raw`.  In
  Python 2 `collections.Sequence` has `basestring` registered, so a
  unicode string passes the `_accepts(collections.Sequence)` check of
  `Sequence.__deserialize__`; the embedding keeps that behaviour.
* A schema *type* (class) is `SchemaTy`: the configuration that the
  generative combinators accumulate (name, options, apply functions,
  validators, child types).  A schema *instance* is `Inst`: `state`,
  the tri-state `valid` flag (`Option Bool`, `none` for Python `None`),
  and the `errors` tuple.
* `datetime.strptime` / `strftime` for the default formats
  `%Y-%m-%d` and `%Y-%m-%dT%H:%M:%S` are modelled from CPython's
  `_strptime` regexes (`%Y` is exactly four ASCII digits, `%m`/`%d`/...
  are one or two ASCII digits further constrained by the pattern and by
  the range checks of the `datetime` constructor); formatting zero-pads
  each field.  The `date_format`/`datetime_format` options are kept at
  their defaults, which is what every claim exercises.
* Exceptions are modelled by `Option`: a function that can raise returns
  `none` on the raising paths (`get_errors`, `with_value`, `serialize`).

The generative class machinery (`_generative`, lines 43-57) is modelled
separately and operationally as a store of class objects with attribute
dictionaries and base pointers, because the isolation claim C1 is about
that machinery itself.
-/

namespace Dictator

/-- Python unicode strings, modelled as lists of characters. -/
abbrev PyStr := List Char

/-- Coerce a Lean string literal into the model's string type. -/
def ps (s : String) : PyStr := s.toList

/-- The characters `unicode.strip()` (and `int()`) treat as whitespace:
space, tab, newline, carriage return, vertical tab, form feed. -/
def isPySpace (c : Char) : Bool :=
  c = ' ' || c = '\t' || c = '\n' || c = '\r' || c = '\x0b' || c = '\x0c'

/-- `u.strip()`: remove leading and trailing whitespace. -/
def pstrip (s : PyStr) : PyStr :=
  ((s.dropWhile isPySpace).reverse.dropWhile isPySpace).reverse

/-- ASCII decimal digit test (`\d` in CPython's `_strptime` regexes,
compiled without `re.UNICODE`, and the digits accepted by `int()` in the
ASCII range). -/
def isAsciiDigit (c : Char) : Bool :=
  48 ≤ c.toNat && c.toNat ≤ 57

/-- Numeric value of an ASCII digit character. -/
def dval (c : Char) : Nat := c.toNat - 48

/-- Value of a big-endian ASCII digit string. -/
def digitsVal (ds : PyStr) : Nat := ds.foldl (fun a c => 10 * a + dval c) 0

/-- Little-endian decimal digits of a natural number (empty for 0). -/
def natToDigitsRev (n : Nat) : PyStr :=
  if h : n = 0 then [] else Nat.digitChar (n % 10) :: natToDigitsRev (n / 10)
decreasing_by exact Nat.div_lt_self (Nat.pos_of_ne_zero h) (by decide)

/-- Decimal rendering of a natural number, as produced by `unicode()`. -/
def natRender (n : Nat) : PyStr :=
  if n = 0 then ['0'] else (natToDigitsRev n).reverse

/-- Decimal rendering of a Python integer, as produced by `unicode()`. -/
def intRender (z : Int) : PyStr :=
  if z < 0 then '-' :: natRender z.natAbs else natRender z.natAbs

/-- `int(u)` on the digit part: at least one ASCII digit and nothing else. -/
def parseDigits (ds : PyStr) : Option Nat :=
  if ds.isEmpty then none
  else if ds.all isAsciiDigit then some (digitsVal ds) else none

/-- Left-pad a digit string with zeros to width `k` (zero-padding of
`strftime` field rendering). -/
def leftPad (k : Nat) (s : PyStr) : PyStr :=
  List.replicate (k - s.length) '0' ++ s

/-- A number rendered to (at least) two digits, as `%m`/`%d`/`%H`/`%M`/`%S`
format it. -/
def pad2 (n : Nat) : PyStr := leftPad 2 (natRender n)

/-- A number rendered to (at least) four digits, as `%Y` formats it. -/
def pad4 (n : Nat) : PyStr := leftPad 4 (natRender n)

/-- `date.strftime("%Y-%m-%d")`. -/
def renderDate (y m d : Nat) : PyStr :=
  pad4 y ++ '-' :: (pad2 m ++ '-' :: pad2 d)

/-- `datetime.strftime("%Y-%m-%dT%H:%M:%S")`. -/
def renderDatetime (y mo d h mi s : Nat) : PyStr :=
  renderDate y mo d ++ 'T' :: (pad2 h ++ ':' :: (pad2 mi ++ ':' :: pad2 s))

/-- Python values the library stores and exports.  `vnone` is Python
`None`; dict keys are `Option PyStr` because a schema element's `name`
may be `None`. -/
inductive Val where
  | vnone
  | vbool (b : Bool)
  | vstr (s : PyStr)
  | vint (z : Int)
  | vdate (y m d : Nat)
  | vdatetime (y mo d h mi s : Nat)
  | vlist (xs : List Val)
  | vmap (kvs : List (Option PyStr × Val))

/-- Raw input data a schema type is invoked with.  `rother` stands for any
Python object that is none of a unicode string, an ordered sequence or a
mapping (ints, `None`, byte strings, ...). -/
inductive Raw where
  | rstr (s : PyStr)
  | rseq (xs : List Raw)
  | rmap (kvs : List (Option PyStr × Raw))
  | rother

mutual

/-- Python `==` on the values above (structural equality; the numeric
cross-type equalities of Python, such as `1 == True`, are not needed by
any configuration the library's claims exercise and are not modelled). -/
def valBeq : Val → Val → Bool
  | .vnone, .vnone => true
  | .vbool a, .vbool b => a == b
  | .vstr a, .vstr b => a == b
  | .vint a, .vint b => a == b
  | .vdate a b c, .vdate x y z => a == x && b == y && c == z
  | .vdatetime a b c d e f, .vdatetime u v w x y z =>
      a == u && b == v && c == w && d == x && e == y && f == z
  | .vlist xs, .vlist ys => valListBeq xs ys
  | .vmap xs, .vmap ys => valPairsBeq xs ys
  | _, _ => false

def valListBeq : List Val → List Val → Bool
  | [], [] => true
  | x :: xs, y :: ys => valBeq x y && valListBeq xs ys
  | _, _ => false

def valPairsBeq : List (Option PyStr × Val) → List (Option PyStr × Val) → Bool
  | [], [] => true
  | (k1, v1) :: xs, (k2, v2) :: ys => k1 == k2 && valBeq v1 v2 && valPairsBeq xs ys
  | _, _ => false

end

/-- Python truthiness of a value (`if self.state` in `Boolean.__serialize__`). -/
def pyTruthy : Val → Bool
  | .vnone => false
  | .vbool b => b
  | .vstr s => !s.isEmpty
  | .vint z => z != 0
  | .vdate _ _ _ => true
  | .vdatetime _ _ _ _ _ _ => true
  | .vlist xs => !xs.isEmpty
  | .vmap kvs => !kvs.isEmpty

/-- `unicode(value)` for the values a scalar state can hold.  (The `repr`
of containers is not reachable through the scalar pipeline and is not
modelled.) -/
def pyUnicode : Val → PyStr
  | .vnone => ps "None"
  | .vbool b => if b then ps "True" else ps "False"
  | .vstr s => s
  | .vint z => intRender z
  | .vdate y m d => renderDate y m d
  | .vdatetime y mo d h mi s =>
      renderDate y mo d ++ ' ' :: (pad2 h ++ ':' :: (pad2 mi ++ ':' :: pad2 s))
  | .vlist _ => []
  | .vmap _ => []

/-- A validator (`__expect__` entry): it receives the node, reads its
exported `value` and may call `note_error` some number of times; per the
pipeline contract it is a function from the exported value to the error
codes it notes (`one_of` below is the library's built-in instance). -/
abbrev Validator := Val → List String

/-- An apply function (`__apply__` entry): a value transform run between
deserialization and validation. -/
abbrev ApplyFn := Val → Val

/-- `one_of(values)`: checks that the element's exported value is one of
the provided values, noting `Wrong choice` otherwise. -/
def one_of (vals : List Val) : Validator := fun v =>
  if vals.any (fun w => valBeq v w) then [] else ["Wrong choice"]

/-- `string.strip` used as `String.__apply__` default entry. -/
def stripFn : ApplyFn
  | .vstr s => .vstr (pstrip s)
  | v => v

/-- The configuration a scalar schema type carries: `name`, the
`optional` option, the `__apply__` tuple and the `__expect__` tuple. -/
structure ScalarOpts where
  name : Option PyStr := none
  optional : Bool := false
  applies : List ApplyFn := []
  expects : List Validator := []

/-- Schema types (class definitions built by the combinators): the five
scalar kinds and the three container kinds, with each kind's
configuration.  `date_format`/`datetime_format` stay at their defaults. -/
inductive SchemaTy where
  | boolean (o : ScalarOpts)
  | stringS (o : ScalarOpts)
  | integer (o : ScalarOpts)
  | date (o : ScalarOpts)
  | datetimeS (o : ScalarOpts)
  | sequence (name : Option PyStr) (expects : List Validator) (child : SchemaTy)
  | simpleMapping (name : Option PyStr) (expects : List Validator) (child : SchemaTy)
  | declaredMapping (name : Option PyStr) (expects : List Validator)
      (missing unknown : Bool) (children : List SchemaTy)

/-- `cls.name`: the `name` attribute of a schema type (default `None`). -/
def nameOf : SchemaTy → Option PyStr
  | .boolean o | .stringS o | .integer o | .date o | .datetimeS o => o.name
  | .sequence n _ _ | .simpleMapping n _ _ | .declaredMapping n _ _ _ _ => n

/-- Python falsiness of a `name` attribute (`not value_types[0].name`):
`None` and the empty string are falsy. -/
def nameFalsy : Option PyStr → Bool
  | none => true
  | some s => s.isEmpty

/-- `Mapping.of(*value_types)`: `SimpleMapping` when exactly one unnamed
type is provided, `DeclaredMapping` otherwise. -/
def Mapping_of (ts : List SchemaTy) : SchemaTy :=
  match ts with
  | [t] =>
      if nameFalsy (nameOf t) then .simpleMapping none [] t
      else .declaredMapping none [] false false [t]
  | _ => .declaredMapping none [] false false ts

/-- `Sequence.of(value_type)` applied to the base `Sequence`. -/
def Sequence_of (t : SchemaTy) : SchemaTy := .sequence none [] t

/-- Schema instances: `state` (scalar value, child tuple, or child dict),
the tri-state `valid` flag, and the `errors` tuple. -/
inductive Inst where
  | mkS (state : Val) (valid : Option Bool) (errors : List String)
  | mkSeq (state : List Inst) (valid : Option Bool) (errors : List String)
  | mkMap (state : List (Option PyStr × Inst)) (valid : Option Bool) (errors : List String)

instance : Inhabited Inst := ⟨.mkS .vnone none []⟩

/-- The instance's `valid` attribute. -/
def validOf : Inst → Option Bool
  | .mkS _ v _ | .mkSeq _ v _ | .mkMap _ v _ => v

/-- The instance's `errors` attribute. -/
def errorsOf : Inst → List String
  | .mkS _ _ e | .mkSeq _ _ e | .mkMap _ _ e => e

mutual

/-- `__export__`: the fully typed value of an instance (`None` when a
scalar has no state; containers recurse into their children). -/
def exportInst : Inst → Val
  | .mkS v _ _ => v
  | .mkSeq items _ _ => .vlist (exportList items)
  | .mkMap st _ _ => .vmap (exportPairs st)

def exportList : List Inst → List Val
  | [] => []
  | i :: rest => exportInst i :: exportList rest

def exportPairs : List (Option PyStr × Inst) → List (Option PyStr × Val)
  | [] => []
  | (k, i) :: rest => (k, exportInst i) :: exportPairs rest

end

/-- Days in a month, as validated by the `datetime.date` constructor
(proleptic Gregorian, with leap years). -/
def daysInMonth (y m : Nat) : Nat :=
  if m = 2 then
    (if y % 4 = 0 && (y % 100 != 0 || y % 400 = 0) then 29 else 28)
  else if m = 4 || m = 6 || m = 9 || m = 11 then 30 else 31

/-- `datetime.strptime(data, "%Y-%m-%d")` followed by `.date()`:
`%Y` is exactly four ASCII digits, `%m` and `%d` are one or two ASCII
digits whose pattern together with the `datetime` constructor bounds the
value (`1 <= m <= 12`, `1 <= d <= days in month`, `year >= 1`); the whole
string must be consumed.  `none` is the `ValueError` path. -/
def parseDate (s : PyStr) : Option (Nat × Nat × Nat) :=
  if (s.takeWhile isAsciiDigit).length = 4 then
    match s.dropWhile isAsciiDigit with
    | '-' :: r2 =>
      if 1 ≤ (r2.takeWhile isAsciiDigit).length ∧ (r2.takeWhile isAsciiDigit).length ≤ 2 then
        match r2.dropWhile isAsciiDigit with
        | '-' :: r4 =>
          if (1 ≤ (r4.takeWhile isAsciiDigit).length ∧
                (r4.takeWhile isAsciiDigit).length ≤ 2) ∧
              r4.dropWhile isAsciiDigit = [] then
            if (1 ≤ digitsVal (s.takeWhile isAsciiDigit) ∧
                  1 ≤ digitsVal (r2.takeWhile isAsciiDigit) ∧
                  digitsVal (r2.takeWhile isAsciiDigit) ≤ 12) ∧
                (1 ≤ digitsVal (r4.takeWhile isAsciiDigit) ∧
                  digitsVal (r4.takeWhile isAsciiDigit) ≤
                    daysInMonth (digitsVal (s.takeWhile isAsciiDigit))
                      (digitsVal (r2.takeWhile isAsciiDigit))) then
              some (digitsVal (s.takeWhile isAsciiDigit),
                digitsVal (r2.takeWhile isAsciiDigit),
                digitsVal (r4.takeWhile isAsciiDigit))
            else none
          else none
        | _ => none
      else none
    | _ => none
  else none

/-- `datetime.strptime(data, "%Y-%m-%dT%H:%M:%S")`: the date part as in
`parseDate`, then `T`, then `%H`/`%M`/`%S`, each one or two ASCII digits
bounded by the pattern (`H <= 23`, `M, S <= 59`). -/
def parseDatetime (s : PyStr) : Option (Nat × Nat × Nat × Nat × Nat × Nat) :=
  if (s.takeWhile isAsciiDigit).length = 4 then
    match s.dropWhile isAsciiDigit with
    | '-' :: r2 =>
      if 1 ≤ (r2.takeWhile isAsciiDigit).length ∧ (r2.takeWhile isAsciiDigit).length ≤ 2 then
        match r2.dropWhile isAsciiDigit with
        | '-' :: r4 =>
          if 1 ≤ (r4.takeWhile isAsciiDigit).length ∧
              (r4.takeWhile isAsciiDigit).length ≤ 2 then
            match r4.dropWhile isAsciiDigit with
            | 'T' :: r6 =>
              if 1 ≤ (r6.takeWhile isAsciiDigit).length ∧
                  (r6.takeWhile isAsciiDigit).length ≤ 2 then
                match r6.dropWhile isAsciiDigit with
                | ':' :: r8 =>
                  if 1 ≤ (r8.takeWhile isAsciiDigit).length ∧
                      (r8.takeWhile isAsciiDigit).length ≤ 2 then
                    match r8.dropWhile isAsciiDigit with
                    | ':' :: r10 =>
                      if (1 ≤ (r10.takeWhile isAsciiDigit).length ∧
                            (r10.takeWhile isAsciiDigit).length ≤ 2) ∧
                          r10.dropWhile isAsciiDigit = [] then
                        if ((1 ≤ digitsVal (s.takeWhile isAsciiDigit) ∧
                              1 ≤ digitsVal (r2.takeWhile isAsciiDigit) ∧
                              digitsVal (r2.takeWhile isAsciiDigit) ≤ 12) ∧
                            (1 ≤ digitsVal (r4.takeWhile isAsciiDigit) ∧
                              digitsVal (r4.takeWhile isAsciiDigit) ≤
                                daysInMonth (digitsVal (s.takeWhile isAsciiDigit))
                                  (digitsVal (r2.takeWhile isAsciiDigit)))) ∧
                            ((digitsVal (r6.takeWhile isAsciiDigit) ≤ 23 ∧
                              digitsVal (r8.takeWhile isAsciiDigit) ≤ 59) ∧
                              digitsVal (r10.takeWhile isAsciiDigit) ≤ 59) then
                          some (digitsVal (s.takeWhile isAsciiDigit),
                            digitsVal (r2.takeWhile isAsciiDigit),
                            digitsVal (r4.takeWhile isAsciiDigit),
                            digitsVal (r6.takeWhile isAsciiDigit),
                            digitsVal (r8.takeWhile isAsciiDigit),
                            digitsVal (r10.takeWhile isAsciiDigit))
                        else none
                      else none
                    | _ => none
                  else none
                | _ => none
              else none
            | _ => none
          else none
        | _ => none
      else none
    | _ => none
  else none

/-- `Boolean.__deserialize__` body: exact match against the truthy and
falsy token sets, `Invalid value` (`none`) otherwise. -/
def booleanBody (s : PyStr) : Option Val :=
  if s == ps "1" || s == ps "true" || s == ps "True" || s == ps "t" || s == ps "on" then
    some (.vbool true)
  else if s == ps "0" || s == ps "false" || s == ps "False" || s == ps "f" || s == ps "off" then
    some (.vbool false)
  else none

/-- `String.__deserialize__` body: identity. -/
def stringBody (s : PyStr) : Option Val := some (.vstr s)

/-- `Integer.__deserialize__` body: `int(data)` — optional surrounding
whitespace, an optional single sign, then ASCII decimal digits; `none`
is the `ValueError` path. -/
def integerBody (s : PyStr) : Option Val :=
  let t := pstrip s
  if t.isEmpty then none
  else if t.headD ' ' = '+' then (parseDigits t.tail).map fun n => .vint (Int.ofNat n)
  else if t.headD ' ' = '-' then (parseDigits t.tail).map fun n => .vint (-(Int.ofNat n))
  else (parseDigits t).map fun n => .vint (Int.ofNat n)

/-- `Date.__deserialize__` body. -/
def dateBody (s : PyStr) : Option Val :=
  (parseDate s).map (fun t => .vdate t.1 t.2.1 t.2.2)

/-- `Datetime.__deserialize__` body. -/
def datetimeBody (s : PyStr) : Option Val :=
  (parseDatetime s).map (fun t => .vdatetime t.1 t.2.1 t.2.2.1 t.2.2.2.1 t.2.2.2.2.1 t.2.2.2.2.2)

/-- Run the `__expect__` validators against an exported value,
accumulating the error codes they note, in declaration order. -/
def runExpects (exps : List Validator) (v : Val) : List String :=
  exps.foldl (fun acc f => acc ++ f v) []

/-- The full scalar pipeline (`__new__` + `Scalar.__init__` +
`Base.__init__`): `_accepts(unicode)`, `_empty_check` with the
`optional` option, the kind's parse body, the `__apply__` functions on a
present value, then `__validate__` (provisionally valid, then the
validators). -/
def mkScalarRun (o : ScalarOpts) (body : PyStr → Option Val) (r : Raw) : Inst :=
  match r with
  | .rstr s =>
    if (pstrip s).isEmpty then
      if o.optional then .mkS .vnone none []
      else .mkS .vnone (some false) ["Empty value"]
    else
      match body s with
      | none => .mkS .vnone (some false) ["Invalid value"]
      | some v =>
        match o.applies.foldl (fun w f => f w) v with
        | .vnone => .mkS .vnone none []
        | w =>
          let es := runExpects o.expects w
          .mkS w (some es.isEmpty) es
  | _ => .mkS .vnone (some false) ["Invalid type"]

/-- Validity an instance gets from `without_value(errors)`: `None` when
no errors are supplied, `False` otherwise (each error goes through
`note_error`). -/
def wvValid (es : List String) : Option Bool :=
  if es.isEmpty then none else some false

/-- `cls.without_value(errors)`: an instance with the class-default state
(`None` / `()` / `{}`), the supplied errors, and `valid` unset unless
errors were supplied. -/
def withoutValueI : SchemaTy → List String → Inst
  | .boolean _, es | .stringS _, es | .integer _, es | .date _, es | .datetimeS _, es =>
      .mkS .vnone (wvValid es) es
  | .sequence _ _ _, es => .mkSeq [] (wvValid es) es
  | .simpleMapping _ _ _, es | .declaredMapping _ _ _ _ _, es =>
      .mkMap [] (wvValid es) es

/-- `Sequence.__validate__` after deserialization: `Base.__validate__`
(export is a list, hence never `None`: provisionally valid, then the
validators) followed by `all(item.valid for item in chain(state, [self]))`. -/
def finishSeq (exps : List Validator) (initErrs : List String) (items : List Inst) : Inst :=
  let verrs := runExpects exps (.vlist (exportList items))
  .mkSeq items
    (some ((items.all fun i => validOf i == some true) && verrs.isEmpty))
    (initErrs ++ verrs)

/-- `SimpleMapping.__validate__`: as `finishSeq`, over the dict values. -/
def finishSM (exps : List Validator) (initErrs : List String)
    (st : List (Option PyStr × Inst)) : Inst :=
  let verrs := runExpects exps (.vmap (exportPairs st))
  .mkMap st
    (some ((st.all fun kv => validOf kv.2 == some true) && verrs.isEmpty))
    (initErrs ++ verrs)

/-- `DeclaredMapping.__validate__`: `all(item.valid is not False ...)` —
a child passes unless its `valid` is explicitly `False`. -/
def finishDM (exps : List Validator) (initErrs : List String)
    (st : List (Option PyStr × Inst)) : Inst :=
  let verrs := runExpects exps (.vmap (exportPairs st))
  .mkMap st
    (some ((st.all fun kv => !(validOf kv.2 == some false)) && verrs.isEmpty))
    (initErrs ++ verrs)

/-- Dict lookup (`data.get(key, ...)`) in a raw mapping. -/
def lookupRaw (k : Option PyStr) : List (Option PyStr × Raw) → Option Raw
  | [] => none
  | (k2, v) :: rest => if k2 = k then some v else lookupRaw k rest

/-- Dict insertion `state[key] = v`: replace in place or append. -/
def dinsert (k : Option PyStr) (v : Inst) :
    List (Option PyStr × Inst) → List (Option PyStr × Inst)
  | [] => [(k, v)]
  | (k2, v2) :: rest => if k2 = k then (k, v) :: rest else (k2, v2) :: dinsert k v rest

/-- `defined_keys - provided_keys` is non-empty: some declared name is
absent from the raw mapping. -/
def dmMissingFlag (ts : List SchemaTy) (kvs : List (Option PyStr × Raw)) : Bool :=
  ts.any fun t => (lookupRaw (nameOf t) kvs).isNone

/-- `provided_keys - defined_keys` is non-empty: some input key is not a
declared name. -/
def dmUnknownFlag (ts : List SchemaTy) (kvs : List (Option PyStr × Raw)) : Bool :=
  kvs.any fun kv => !(ts.any fun t => nameOf t == kv.1)

/-- The node-level errors `DeclaredMapping.__deserialize__` records:
`Missing keys` at most once, then `Unknown keys` at most once, each
gated by the corresponding option. -/
def dmKeyErrs (miss unk : Bool) (ts : List SchemaTy)
    (kvs : List (Option PyStr × Raw)) : List String :=
  (if dmMissingFlag ts kvs && !miss then ["Missing keys"] else [])
    ++ (if dmUnknownFlag ts kvs && !unk then ["Unknown keys"] else [])

mutual

/-- Invoking a schema type on raw data: the full pipeline
(`__new__` runs `__deserialize__`, `__init__` runs the apply functions
and `__validate__`).  In Python 2 a unicode string is a
`collections.Sequence`, so `Sequence` iterates its characters. -/
def run : SchemaTy → Raw → Inst
  | .boolean o, r => mkScalarRun o booleanBody r
  | .stringS o, r => mkScalarRun o stringBody r
  | .integer o, r => mkScalarRun o integerBody r
  | .date o, r => mkScalarRun o dateBody r
  | .datetimeS o, r => mkScalarRun o datetimeBody r
  | .sequence _ exps child, .rstr s =>
      finishSeq exps [] (s.map fun c => run child (.rstr [c]))
  | .sequence _ exps child, .rseq xs =>
      finishSeq exps [] (xs.map fun x => run child x)
  | .sequence _ exps _, .rmap _ => finishSeq exps ["Invalid type"] []
  | .sequence _ exps _, .rother => finishSeq exps ["Invalid type"] []
  | .simpleMapping _ exps child, .rmap kvs =>
      finishSM exps [] (kvs.map fun kv => (kv.1, run child kv.2))
  | .simpleMapping _ exps _, .rstr _ => finishSM exps ["Invalid type"] []
  | .simpleMapping _ exps _, .rseq _ => finishSM exps ["Invalid type"] []
  | .simpleMapping _ exps _, .rother => finishSM exps ["Invalid type"] []
  | .declaredMapping _ exps miss unk ts, .rmap kvs =>
      finishDM exps (dmKeyErrs miss unk ts kvs)
        ((runDMPairs miss ts kvs).foldl (fun st kv => dinsert kv.1 kv.2 st) [])
  | .declaredMapping _ exps _ _ _, .rstr _ => finishDM exps ["Invalid type"] []
  | .declaredMapping _ exps _ _ _, .rseq _ => finishDM exps ["Invalid type"] []
  | .declaredMapping _ exps _ _ _, .rother => finishDM exps ["Invalid type"] []

/-- The declared children of a `DeclaredMapping`, each either run on its
key's raw value or built by `without_value` (with `Missing value` unless
the `missing` option is set). -/
def runDMPairs (miss : Bool) : List SchemaTy → List (Option PyStr × Raw) →
    List (Option PyStr × Inst)
  | [], _ => []
  | t :: ts, kvs =>
      (nameOf t,
        match lookupRaw (nameOf t) kvs with
        | none => withoutValueI t (if miss then [] else ["Missing value"])
        | some rv => run t rv) :: runDMPairs miss ts kvs

end

/-- Dict lookup in a map-shaped instance state. -/
def lookupInst (k : Option PyStr) : List (Option PyStr × Inst) → Option Inst
  | [] => none
  | (k2, v) :: rest => if k2 = k then some v else lookupInst k rest

/-- Dict lookup (`value.get(key, None)`) in a `Val.vmap`. -/
def lookupVal (k : Option PyStr) : List (Option PyStr × Val) → Option Val
  | [] => none
  | (k2, v) :: rest => if k2 = k then some v else lookupVal k rest

/-- Remove every entry with the given key from a `Val.vmap` (used to
state that an explicit `None` value is indistinguishable from key
absence for `DeclaredMapping.__import__`). -/
def eraseKeyVal (n : Option PyStr) : List (Option PyStr × Val) → List (Option PyStr × Val)
  | [] => []
  | (k, v) :: rest =>
      if k = n then eraseKeyVal n rest else (k, v) :: eraseKeyVal n rest

mutual

/-- `__serialize__`: string-shaped representation.  `none` models the
exception paths: a scalar state of the wrong type for `strftime`, a
state/type shape mismatch, and — reachable from the pipeline, because
`strptime` accepts any four-digit year — CPython 2's `wrap_strftime`,
which raises `ValueError` for every year below 1900 (`the datetime
strftime() methods require year >= 1900`; only Python 3.2 relaxed it).
For a `DeclaredMapping` the state keys are exactly the declared names
(both construction paths build them that way), so the children are
serialized by iterating the declared types and looking each up. -/
def serializeInst : SchemaTy → Inst → Option Raw
  | .boolean _, .mkS st _ _ =>
      some (.rstr (match st with
        | .vnone => []
        | v => if pyTruthy v then ps "true" else ps "false"))
  | .stringS _, .mkS st _ _ =>
      some (.rstr (match st with | .vnone => [] | v => pyUnicode v))
  | .integer _, .mkS st _ _ =>
      some (.rstr (match st with | .vnone => [] | v => pyUnicode v))
  | .date _, .mkS st _ _ =>
      (match st with
        | .vnone => some (.rstr [])
        | .vdate y m d =>
            if y < 1900 then none else some (.rstr (renderDate y m d))
        | _ => none)
  | .datetimeS _, .mkS st _ _ =>
      (match st with
        | .vnone => some (.rstr [])
        | .vdatetime y mo d h mi s =>
            if y < 1900 then none else some (.rstr (renderDatetime y mo d h mi s))
        | _ => none)
  | .sequence _ _ child, .mkSeq items _ _ =>
      (serializeList child items).map .rseq
  | .simpleMapping _ _ child, .mkMap st _ _ =>
      (serializePairsSM child st).map .rmap
  | .declaredMapping _ _ _ _ ts, .mkMap st _ _ =>
      (serializePairsDM ts st).map .rmap
  | _, _ => none

def serializeList (child : SchemaTy) : List Inst → Option (List Raw)
  | [] => some []
  | i :: rest =>
      match serializeInst child i, serializeList child rest with
      | some r, some rs => some (r :: rs)
      | _, _ => none

def serializePairsSM (child : SchemaTy) :
    List (Option PyStr × Inst) → Option (List (Option PyStr × Raw))
  | [] => some []
  | (k, i) :: rest =>
      match serializeInst child i, serializePairsSM child rest with
      | some r, some rs => some ((k, r) :: rs)
      | _, _ => none

def serializePairsDM :
    List SchemaTy → List (Option PyStr × Inst) → Option (List (Option PyStr × Raw))
  | [], _ => some []
  | t :: ts, st =>
      match lookupInst (nameOf t) st with
      | none => none
      | some i =>
          match serializeInst t i, serializePairsDM ts st with
          | some r, some rs => some ((nameOf t, r) :: rs)
          | _, _ => none

end

/-- The nested error report `get_errors` produces: this node's own error
codes, plus recursive reports of the children for container-backed
states. -/
inductive Report where
  | leaf (errors : List String)
  | seqR (errors : List String) (items : List Report)
  | mapR (errors : List String) (items : List (Option PyStr × Report))

mutual

/-- `get_errors(schema)` (lines 518-532): a scalar node yields its own
errors; a tuple-backed container maps over its items; a dict-backed
container unpacks `zip(*state.iteritems())` — which raises `ValueError`
when the dict is empty (`zip()` of nothing cannot be unpacked into two
variables), modelled by `none`. -/
def get_errors : Inst → Option Report
  | .mkS _ _ es => some (.leaf es)
  | .mkSeq items _ es => (getErrorsList items).map (.seqR es)
  | .mkMap st _ es =>
      match st with
      | [] => none
      | _ => (getErrorsPairs st).map (.mapR es)

def getErrorsList : List Inst → Option (List Report)
  | [] => some []
  | i :: rest =>
      match get_errors i, getErrorsList rest with
      | some r, some rs => some (r :: rs)
      | _, _ => none

def getErrorsPairs : List (Option PyStr × Inst) → Option (List (Option PyStr × Report))
  | [] => some []
  | (k, i) :: rest =>
      match get_errors i, getErrorsPairs rest with
      | some r, some rs => some ((k, r) :: rs)
      | _, _ => none

end

/-- Iterating a Python value (for `imap(..., value)`): a list yields its
items, a unicode string its characters, a dict its keys; `none` for
non-iterables (`TypeError`). -/
def valIter : Val → Option (List Val)
  | .vlist xs => some xs
  | .vstr s => some (s.map fun c => .vstr [c])
  | .vmap kvs => some (kvs.map fun kv =>
      match kv.1 with
      | some k => Val.vstr k
      | none => Val.vnone)
  | _ => none

mutual

/-- `cls.with_value(value)` → `__import__`: wrap an already-typed value
as state without running deserialization or validation.  `none` models
the exception paths (`TypeError`/`AttributeError` on a value of the
wrong shape for a container). -/
def importInst : SchemaTy → Val → Option Inst
  | .boolean _, v | .stringS _, v | .integer _, v | .date _, v | .datetimeS _, v =>
      some (.mkS v none [])
  | .sequence _ _ child, v =>
      match valIter v with
      | none => none
      | some xs => (importList child xs).map fun is => .mkSeq is none []
  | .simpleMapping _ _ child, .vmap kvs =>
      (importPairs child kvs).map fun st => .mkMap st none []
  | .simpleMapping _ _ _, _ => none
  | .declaredMapping _ _ _ _ ts, .vmap kvs =>
      (importDMPairs ts kvs).map fun prs =>
        .mkMap (prs.foldl (fun st kv => dinsert kv.1 kv.2 st) []) none []
  | .declaredMapping _ _ _ _ _, _ => none

def importList (child : SchemaTy) : List Val → Option (List Inst)
  | [] => some []
  | v :: rest =>
      match importInst child v, importList child rest with
      | some i, some is => some (i :: is)
      | _, _ => none

def importPairs (child : SchemaTy) :
    List (Option PyStr × Val) → Option (List (Option PyStr × Inst))
  | [] => some []
  | (k, v) :: rest =>
      match importInst child v, importPairs child rest with
      | some i, some is => some ((k, i) :: is)
      | _, _ => none

/-- `DeclaredMapping.__import__`: for each declared type,
`value.get(name, None)`; a `None` result — whether the key is absent or
its value is literally `None` — builds the child `without_value()`. -/
def importDMPairs : List SchemaTy → List (Option PyStr × Val) →
    Option (List (Option PyStr × Inst))
  | [], _ => some []
  | t :: ts, kvs =>
      let child :=
        match lookupVal (nameOf t) kvs with
        | none => some (withoutValueI t [])
        | some .vnone => some (withoutValueI t [])
        | some v => importInst t v
      match child, importDMPairs ts kvs with
      | some c, some rest => some ((nameOf t, c) :: rest)
      | _, _ => none

end

/-!
Operational model of the generative combinator machinery
(`_generative`, lines 43-57): schema types are Python classes; a
combinator call either subclasses the receiver (first derivation: a new
class whose dict holds only `__subclassed__ = True` and whose base is
the receiver) or copies it (`type(name, cls.__bases__, dict(cls.__dict__))`),
and then mutates only the new class via `setattr`.  Classes live in a
store indexed by allocation order; attribute lookup walks the (single
inheritance) base chain.
-/

/-- Attribute values stored in class dicts: `name` strings, boolean
options, the `__subclassed__` marker, opaque functions (validators,
apply functions), references to other classes (`__value_type__`), and
tuples of these. -/
inductive AVal where
  | astr (s : PyStr)
  | abool (b : Bool)
  | amark
  | afun (n : Nat)
  | aclass (c : Nat)
  | atuple (xs : List AVal)

/-- A Python class: base-class references and its own attribute dict. -/
structure PyClass where
  bases : List Nat
  attrs : List (String × AVal)

/-- The class store: classes indexed by allocation order. -/
structure Store where
  classes : List PyClass

/-- `setattr(cls, k, v)`: update the class's own dict. -/
def setattrA (k : String) (v : AVal) : List (String × AVal) → List (String × AVal)
  | [] => [(k, v)]
  | (k2, v2) :: rest => if k2 = k then (k, v) :: rest else (k2, v2) :: setattrA k v rest

/-- The body of a combinator (`named` / `using` / `expect` / `apply` /
`of`): a sequence of `setattr` calls on the fresh class. -/
def applyMuts (muts : List (String × AVal)) (d : List (String × AVal)) :
    List (String × AVal) :=
  muts.foldl (fun d2 kv => setattrA kv.1 kv.2 d2) d

/-- `getattr`: look an attribute up in the class's own dict, then along
the base chain; `fuel` bounds the walk (any `fuel > cid` is exhaustive
on a well-formed store, where bases precede their subclasses). -/
def lookupAttr (cs : List PyClass) : Nat → Nat → String → Option AVal
  | 0, _, _ => none
  | fuel + 1, cid, k =>
      match cs.get? cid with
      | none => none
      | some c =>
          match (c.attrs.find? fun kv => kv.1 = k) with
          | some kv => some kv.2
          | none =>
              match c.bases with
              | [] => none
              | b :: _ => lookupAttr cs fuel b k

/-- `hasattr(cls, k)` with enough fuel for a well-formed store. -/
def hasAttr (cs : List PyClass) (cid : Nat) (k : String) : Bool :=
  (lookupAttr cs (cid + 1) cid k).isSome

/-- The class a `_generative` call on `cid` creates: a subclass holding
only the `__subclassed__` marker on the first derivation
(`not hasattr(cls, '__subclassed__')`), a copy of the receiver's dict
and bases afterwards; the combinator body's `setattr` calls then mutate
only this new class. -/
def newClassOf (muts : List (String × AVal)) (s : Store) (cid : Nat) : PyClass :=
  if hasAttr s.classes cid "__subclassed__" then
    match s.classes.get? cid with
    | some c => { bases := c.bases, attrs := applyMuts muts c.attrs }
    | none => { bases := [], attrs := applyMuts muts [] }
  else
    { bases := [cid], attrs := applyMuts muts [("__subclassed__", AVal.amark)] }

/-- One `_generative` call on class `cid` with mutation body `muts`:
allocate the new class at the end of the store and return its id. -/
def generativeCall (muts : List (String × AVal)) (s : Store) (cid : Nat) :
    Store × Nat :=
  (⟨s.classes ++ [newClassOf muts s cid]⟩, s.classes.length)

/-- A chain of combinator calls, each on some class in the store. -/
def runCalls (s : Store) : List (Nat × List (String × AVal)) → Store
  | [] => s
  | c :: rest => runCalls (generativeCall c.2 s c.1).1 rest

/-- One class's well-formedness: its base references point to earlier
classes. -/
def classOK (cs : List PyClass) (i : Nat) : Bool :=
  match cs.get? i with
  | some c => c.bases.all fun b => decide (b < i)
  | none => true

/-- Store well-formedness: every base reference points to an earlier
class. -/
def wfStore (s : Store) : Bool :=
  (List.range s.classes.length).all (classOK s.classes)

/-- Every call in the chain targets a class that exists when the call is
made (each call allocates exactly one new class). -/
def callsOK (len : Nat) : List (Nat × List (String × AVal)) → Bool
  | [] => true
  | c :: rest => decide (c.1 < len) && callsOK (len + 1) rest

/-! Default schema types, as the library classes define them. -/

/-- The `Boolean` class with its default configuration. -/
def BooleanTy : SchemaTy := .boolean {}

/-- The `String` class: its default `__apply__` is `(string.strip,)`. -/
def StringTy : SchemaTy := .stringS { applies := [stripFn] }

/-- The `Integer` class with its default configuration. -/
def IntegerTy : SchemaTy := .integer {}

/-- The `Date` class with the default `date_format`. -/
def DateTy : SchemaTy := .date {}

/-- The `Datetime` class with the default `datetime_format`. -/
def DatetimeTy : SchemaTy := .datetimeS {}

/-- The `Sequence` class: its default value type is `String`. -/
def SequenceTy : SchemaTy := .sequence none [] StringTy

/-- The tuple state of a sequence-backed instance (empty otherwise). -/
def stateListOf : Inst → List Inst
  | .mkSeq items _ _ => items
  | _ => []

/-- The dict state of a mapping-backed instance (empty otherwise). -/
def stateMapOf : Inst → List (Option PyStr × Inst)
  | .mkMap st _ _ => st
  | _ => []

/-! Concrete schemas used by the specification's scenarios. -/

/-- `String.named('foo').expect(one_of(['one', 'two', 'three']))`. -/
def FooString : SchemaTy :=
  .stringS { name := some (ps "foo"), applies := [stripFn],
             expects := [one_of [.vstr (ps "one"), .vstr (ps "two"), .vstr (ps "three")]] }

/-- `Integer.named('bar')`. -/
def BarInteger : SchemaTy := .integer { name := some (ps "bar") }

/-- The declared mapping of the Missing-keys scenario:
`Mapping.of(String.named('foo').expect(one_of(...)), Integer.named('bar'))`. -/
def C4Schema : SchemaTy := Mapping_of [FooString, BarInteger]

/-- The sequence of the element-isolation scenario:
`Sequence.of(Mapping.of(Integer))`. -/
def C3Schema : SchemaTy := Sequence_of (Mapping_of [IntegerTy])

/-- The raw input of the element-isolation scenario:
`[{"x": u"1"}, {"x": u"bad"}]`. -/
def c3Input : Raw :=
  .rseq [.rmap [(some (ps "x"), .rstr (ps "1"))],
         .rmap [(some (ps "x"), .rstr (ps "bad"))]]

/-- A one-class store holding only the root `Base` class, used to witness
the isolation theorem on a concrete chain. -/
def demoStore : Store := ⟨[⟨[], []⟩]⟩

/-- A concrete combinator chain: derive from `Base` (`named`), derive
again from the derived class (`using(optional=True)`), then derive a
second, differently-named type from `Base`. -/
def demoCalls : List (Nat × List (String × AVal)) :=
  [(0, [("name", .astr (ps "a"))]),
   (1, [("optional", .abool true)]),
   (0, [("name", .astr (ps "b"))])]

/-!  Theorems settling the claims.  -/

/-- `all` over a mapped list tests the composite predicate. -/
theorem all_map_comp {α β : Type} (f : α → β) (p : β → Bool) :
    ∀ xs : List α, (xs.map f).all p = xs.all fun x => p (f x)
  | [] => rfl
  | x :: t => by
    simp only [List.map_cons, List.all_cons, all_map_comp f p t]

/-- Claim C2, evaluation at the failing input.  The claim (and the
docstring of `valid` in the source, lines 107-110) says an instance
whose own `errors` list is non-empty has `valid = False`.  But a default
`Sequence` invoked on a non-sequence raw value records `Invalid type`
during deserialization and still ends with `valid = True`:
`Base.__validate__` overwrites `valid` with `True` (the exported state
`[]` is not `None`) and the `all(...)` over zero children and the
provisionally-valid self passes. -/
theorem claim_C2_eval :
    run SequenceTy .rother = .mkSeq [] (some true) ["Invalid type"] ∧
    errorsOf (run SequenceTy .rother) ≠ [] ∧
    validOf (run SequenceTy .rother) = some true :=
  ⟨rfl, by decide, rfl⟩

/-- Claim C9, evaluation at the failing input.  `get_errors` on a
`SimpleMapping` instance deserialized from the empty mapping `{}`
reaches `keys, values = zip(*schema.state.iteritems())` with an empty
dict, and unpacking `zip()` of nothing raises `ValueError` (modelled by
`none`) — although the instance itself is perfectly well formed. -/
theorem claim_C9_eval :
    get_errors (run (.simpleMapping none [] IntegerTy) (.rmap [])) = none ∧
    run (.simpleMapping none [] IntegerTy) (.rmap []) = .mkMap [] (some true) [] :=
  ⟨rfl, rfl⟩

/-- Claim C8, counterexample.  The claim says a default `Sequence` given
the raw string `u"ab"` records `Invalid type` and leaves the state
unset; in Python 2 `basestring` is registered as `collections.Sequence`,
so the string passes `_accepts` and is deserialized as the two-element
sequence of its characters, with no error at all. -/
theorem claim_C8_counterexample :
    run SequenceTy (.rstr (ps "ab"))
      = .mkSeq [.mkS (.vstr (ps "a")) (some true) [],
                .mkS (.vstr (ps "b")) (some true) []] (some true) [] ∧
    errorsOf (run SequenceTy (.rstr (ps "ab"))) = [] ∧
    (stateListOf (run SequenceTy (.rstr (ps "ab")))).length = 2 :=
  ⟨rfl, rfl, rfl⟩

/-- Claim C8 as amended: a validator-free `Sequence` deserializes a raw
string as the sequence of its one-character strings (each run through
the child pipeline) with no error recorded, and records `Invalid type`
with the state left unset only for raw inputs that are not sequences at
all (mappings, other objects). -/
theorem claim_C8_amended (nm : Option PyStr) (child : SchemaTy) (s : PyStr)
    (kvs : List (Option PyStr × Raw)) :
    errorsOf (run (.sequence nm [] child) (.rstr s)) = [] ∧
    stateListOf (run (.sequence nm [] child) (.rstr s))
      = s.map (fun c => run child (.rstr [c])) ∧
    errorsOf (run (.sequence nm [] child) (.rmap kvs)) = ["Invalid type"] ∧
    stateListOf (run (.sequence nm [] child) (.rmap kvs)) = [] ∧
    errorsOf (run (.sequence nm [] child) .rother) = ["Invalid type"] ∧
    stateListOf (run (.sequence nm [] child) .rother) = [] := by
  refine ⟨?_, ?_, ?_, ?_, ?_, ?_⟩ <;>
    simp [run, finishSeq, runExpects, errorsOf, stateListOf]

/-- Claim C3: a `Sequence` runs each raw element through the child
type's pipeline independently (the child tuple is exactly the input
mapped through the child pipeline, so it has the input's length and each
entry depends only on its own element), and its `valid` is the strict
AND over all children (and the validator-free self); in the concrete
scenario, `Sequence.of(Mapping.of(Integer))` on
`[{"x": u"1"}, {"x": u"bad"}]` yields item 0 valid with value `{x: 1}`,
item 1 invalid with `Invalid value` on `x`, and the sequence invalid. -/
theorem claim_C3 :
    (∀ (nm : Option PyStr) (child : SchemaTy) (xs : List Raw),
      stateListOf (run (.sequence nm [] child) (.rseq xs))
        = xs.map (fun x => run child x) ∧
      (stateListOf (run (.sequence nm [] child) (.rseq xs))).length = xs.length ∧
      validOf (run (.sequence nm [] child) (.rseq xs))
        = some (xs.all fun x => validOf (run child x) == some true)) ∧
    run C3Schema c3Input
      = .mkSeq [.mkMap [(some (ps "x"), .mkS (.vint 1) (some true) [])] (some true) [],
                .mkMap [(some (ps "x"), .mkS .vnone (some false) ["Invalid value"])]
                  (some false) []]
          (some false) [] ∧
    validOf (stateListOf (run C3Schema c3Input))[0]! = some true ∧
    exportInst (stateListOf (run C3Schema c3Input))[0]!
      = .vmap [(some (ps "x"), .vint 1)] ∧
    validOf (stateListOf (run C3Schema c3Input))[1]! = some false ∧
    errorsOf (lookupInst (some (ps "x"))
        (stateMapOf (stateListOf (run C3Schema c3Input))[1]!)).get!
      = ["Invalid value"] ∧
    validOf (run C3Schema c3Input) = some false := by
  refine ⟨?_, rfl, rfl, rfl, rfl, rfl, rfl⟩
  intro nm child xs
  refine ⟨?_, ?_, ?_⟩
  · simp [run, finishSeq, runExpects, stateListOf]
  · simp [run, finishSeq, runExpects, stateListOf]
  · simp only [run, finishSeq, runExpects, validOf, List.foldl_nil, List.isEmpty_nil,
      Bool.and_true]
    exact congrArg some (all_map_comp (fun x => run child x)
      (fun i => validOf i == some true) xs)

/-- Claim C5: with `missing=true` an absent declared key yields a child
with no state, no errors and `valid` unset, and the parent stays valid;
and the three containers' validity rules are as claimed — `Sequence` and
`SimpleMapping` require every child's `valid` to be strictly `True`,
while `DeclaredMapping` only requires it to be not explicitly `False`
(so unset children pass). -/
theorem claim_C5 :
    run (.declaredMapping none [] true false [.integer { name := some (ps "foo") }])
        (.rmap [])
      = .mkMap [(some (ps "foo"), .mkS .vnone none [])] (some true) [] ∧
    (∀ (nm : Option PyStr) (child : SchemaTy) (xs : List Raw),
      validOf (run (.sequence nm [] child) (.rseq xs))
        = some ((stateListOf (run (.sequence nm [] child) (.rseq xs))).all
            fun i => validOf i == some true)) ∧
    (∀ (nm : Option PyStr) (child : SchemaTy) (kvs : List (Option PyStr × Raw)),
      validOf (run (.simpleMapping nm [] child) (.rmap kvs))
        = some ((stateMapOf (run (.simpleMapping nm [] child) (.rmap kvs))).all
            fun kv => validOf kv.2 == some true)) ∧
    (∀ (nm : Option PyStr) (miss unk : Bool) (ts : List SchemaTy)
        (kvs : List (Option PyStr × Raw)),
      validOf (run (.declaredMapping nm [] miss unk ts) (.rmap kvs))
        = some ((stateMapOf (run (.declaredMapping nm [] miss unk ts) (.rmap kvs))).all
            fun kv => !(validOf kv.2 == some false))) := by
  refine ⟨rfl, ?_, ?_, ?_⟩ <;> intros <;>
    simp [run, finishSeq, finishSM, finishDM, runExpects, stateListOf, stateMapOf, validOf]

/-- Claim C4: a validator-free `DeclaredMapping` with `missing=false`
given a raw mapping lacking at least one declared key records the
`Missing keys` error exactly once on the node itself; and in the
concrete scenario, the declared mapping of
`{foo: String(one_of), bar: Integer}` given `{}` yields each absent
child constructed without value with a `Missing value` error, the
mapping invalid, and the error report
`{errors: [Missing keys], items: {foo: {errors: [Missing value]},
bar: {errors: [Missing value]}}}`. -/
theorem claim_C4 :
    (∀ (nm : Option PyStr) (unk : Bool) (ts : List SchemaTy)
        (kvs : List (Option PyStr × Raw)),
      dmMissingFlag ts kvs = true →
      (errorsOf (run (.declaredMapping nm [] false unk ts) (.rmap kvs))).count
          "Missing keys" = 1) ∧
    run C4Schema (.rmap [])
      = .mkMap [(some (ps "foo"), .mkS .vnone (some false) ["Missing value"]),
                (some (ps "bar"), .mkS .vnone (some false) ["Missing value"])]
          (some false) ["Missing keys"] ∧
    get_errors (run C4Schema (.rmap []))
      = some (.mapR ["Missing keys"]
          [(some (ps "foo"), .leaf ["Missing value"]),
           (some (ps "bar"), .leaf ["Missing value"])]) := by
  refine ⟨?_, rfl, rfl⟩
  intro nm unk ts kvs h
  simp only [run, finishDM, dmKeyErrs, runExpects, errorsOf, h, List.foldl_nil,
    List.append_nil, Bool.not_false, Bool.and_true, if_true]
  split <;> decide

/-- Claim C4, witness: the general single-`Missing keys` statement at
the concrete scenario input. -/
theorem claim_C4_witness :
    (errorsOf (run (.declaredMapping none [] false false [FooString, BarInteger])
        (.rmap []))).count "Missing keys" = 1 :=
  claim_C4.1 none false [FooString, BarInteger] [] (by decide)

/-- A blank raw string under `optional=true` skips the parse body, every
apply function and every validator, leaving a fresh, error-free, unset
instance. -/
theorem mkScalarRun_blank (o : ScalarOpts) (body : PyStr → Option Val) (s : PyStr)
    (h : (pstrip s).isEmpty = true) (hopt : o.optional = true) :
    mkScalarRun o body (.rstr s) = .mkS .vnone none [] := by
  simp [mkScalarRun, h, hopt]

/-- Claim C7: every scalar type with `optional=true` (any name, any
apply functions, any validators) given blank raw input yields the
`None`-equivalent state with no error and `valid` unset — the parse
body, the apply functions and the validators are all skipped — and it
serializes to the empty string. -/
theorem claim_C7 (nm : Option PyStr) (aps : List ApplyFn) (exs : List Validator)
    (s : PyStr) (h : pstrip s = []) :
    (run (.boolean { name := nm, optional := true, applies := aps, expects := exs })
        (.rstr s) = .mkS .vnone none [] ∧
     serializeInst (.boolean { name := nm, optional := true, applies := aps, expects := exs })
        (run (.boolean { name := nm, optional := true, applies := aps, expects := exs })
          (.rstr s)) = some (.rstr [])) ∧
    (run (.stringS { name := nm, optional := true, applies := aps, expects := exs })
        (.rstr s) = .mkS .vnone none [] ∧
     serializeInst (.stringS { name := nm, optional := true, applies := aps, expects := exs })
        (run (.stringS { name := nm, optional := true, applies := aps, expects := exs })
          (.rstr s)) = some (.rstr [])) ∧
    (run (.integer { name := nm, optional := true, applies := aps, expects := exs })
        (.rstr s) = .mkS .vnone none [] ∧
     serializeInst (.integer { name := nm, optional := true, applies := aps, expects := exs })
        (run (.integer { name := nm, optional := true, applies := aps, expects := exs })
          (.rstr s)) = some (.rstr [])) ∧
    (run (.date { name := nm, optional := true, applies := aps, expects := exs })
        (.rstr s) = .mkS .vnone none [] ∧
     serializeInst (.date { name := nm, optional := true, applies := aps, expects := exs })
        (run (.date { name := nm, optional := true, applies := aps, expects := exs })
          (.rstr s)) = some (.rstr [])) ∧
    (run (.datetimeS { name := nm, optional := true, applies := aps, expects := exs })
        (.rstr s) = .mkS .vnone none [] ∧
     serializeInst (.datetimeS { name := nm, optional := true, applies := aps, expects := exs })
        (run (.datetimeS { name := nm, optional := true, applies := aps, expects := exs })
          (.rstr s)) = some (.rstr [])) := by
  have he : (pstrip s).isEmpty = true := by simp [h]
  refine ⟨⟨?_, ?_⟩, ⟨?_, ?_⟩, ⟨?_, ?_⟩, ⟨?_, ?_⟩, ⟨?_, ?_⟩⟩ <;>
    simp [run, mkScalarRun, he, serializeInst]

/-- Claim C7, witness: the `Boolean` conjunct evaluated at the blank
input `u" "`. -/
theorem claim_C7_witness :
    run (.boolean { name := none, optional := true, applies := [], expects := [] })
        (.rstr (ps " ")) = .mkS .vnone none [] :=
  (claim_C7 none [] [] (ps " ") (by decide)).1.1

/-- Looking a key up past a cons with a different key. -/
theorem lookupVal_cons_ne (k n : Option PyStr) (v : Val)
    (kvs : List (Option PyStr × Val)) (h : n ≠ k) :
    lookupVal k ((n, v) :: kvs) = lookupVal k kvs := by
  simp [lookupVal, h]

/-- Erasing a key removes it from lookups. -/
theorem lookupVal_eraseKeyVal_self (n : Option PyStr) :
    ∀ kvs : List (Option PyStr × Val), lookupVal n (eraseKeyVal n kvs) = none
  | [] => rfl
  | (k, v) :: rest => by
    by_cases hk : k = n
    · simp [eraseKeyVal, hk, lookupVal_eraseKeyVal_self n rest]
    · simp [eraseKeyVal, hk, lookupVal, lookupVal_eraseKeyVal_self n rest]

/-- Erasing one key leaves lookups of other keys unchanged. -/
theorem lookupVal_eraseKeyVal_ne (n k : Option PyStr) (h : k ≠ n) :
    ∀ kvs : List (Option PyStr × Val),
      lookupVal k (eraseKeyVal n kvs) = lookupVal k kvs
  | [] => rfl
  | (k2, v) :: rest => by
    have hnk : ¬ n = k := fun hx => h hx.symm
    by_cases hk : k2 = n
    · rw [eraseKeyVal, if_pos hk, lookupVal_eraseKeyVal_ne n k h rest, lookupVal, hk,
        if_neg hnk]
    · rw [eraseKeyVal, if_neg hk]
      by_cases hk2 : k2 = k
      · rw [lookupVal, if_pos hk2, lookupVal, if_pos hk2]
      · rw [lookupVal, if_neg hk2, lookupVal, if_neg hk2,
          lookupVal_eraseKeyVal_ne n k h rest]

/-- The per-type children of `DeclaredMapping.__import__` do not
distinguish a literal `None` value from key absence. -/
theorem importDMPairs_vnone_erase (n : Option PyStr) (kvs : List (Option PyStr × Val)) :
    ∀ ts : List SchemaTy,
      importDMPairs ts ((n, .vnone) :: kvs) = importDMPairs ts (eraseKeyVal n kvs)
  | [] => by simp [importDMPairs]
  | t :: ts => by
    have htail := importDMPairs_vnone_erase n kvs ts
    by_cases hn : nameOf t = n
    · have h1 : lookupVal (nameOf t) ((n, Val.vnone) :: kvs) = some .vnone := by
        simp [lookupVal, hn]
      have h2 : lookupVal (nameOf t) (eraseKeyVal n kvs) = none := by
        rw [hn, lookupVal_eraseKeyVal_self]
      simp [importDMPairs, h1, h2, htail]
    · have h1 : lookupVal (nameOf t) ((n, Val.vnone) :: kvs) = lookupVal (nameOf t) kvs :=
        lookupVal_cons_ne _ _ _ _ (fun hx => hn hx.symm)
      have h2 : lookupVal (nameOf t) (eraseKeyVal n kvs) = lookupVal (nameOf t) kvs :=
        lookupVal_eraseKeyVal_ne n _ hn kvs
      simp only [importDMPairs, h1, h2, htail]

/-- Claim C10: through the build-from-typed-value path
(`with_value` → `DeclaredMapping.__import__`), a declared key whose
supplied value is `None` is treated exactly like an absent key — the
whole import is unchanged if the `None` entry is deleted — and such a
child is constructed `without_value()`: default state, no errors, and
`valid` unset. -/
theorem claim_C10 :
    (∀ (nm : Option PyStr) (exps : List Validator) (miss unk : Bool)
        (ts : List SchemaTy) (n : Option PyStr) (kvs : List (Option PyStr × Val)),
      importInst (.declaredMapping nm exps miss unk ts) (.vmap ((n, .vnone) :: kvs))
        = importInst (.declaredMapping nm exps miss unk ts) (.vmap (eraseKeyVal n kvs))) ∧
    (∀ (t : SchemaTy) (kvs : List (Option PyStr × Val)),
      lookupVal (nameOf t) kvs = none ∨ lookupVal (nameOf t) kvs = some .vnone →
      importDMPairs [t] kvs = some [(nameOf t, withoutValueI t [])]) ∧
    (∀ t : SchemaTy,
      validOf (withoutValueI t []) = none ∧ errorsOf (withoutValueI t []) = []) := by
  refine ⟨?_, ?_, ?_⟩
  · intro nm exps miss unk ts n kvs
    simp only [importInst, importDMPairs_vnone_erase n kvs ts]
  · intro t kvs h
    rcases h with h | h <;> simp [importDMPairs, h]
  · intro t
    cases t <;> simp [withoutValueI, wvValid, validOf, errorsOf]

/-- Claim C10, witness: the `without_value` construction of the child at
a concrete declared type and map. -/
theorem claim_C10_witness :
    importDMPairs [BarInteger] [] = some [(some (ps "bar"), withoutValueI BarInteger [])] :=
  claim_C10.2.1 BarInteger [] (Or.inl rfl)

/-- The well-formedness fact of one stored class: its bases precede it. -/
theorem wfStore_lt {cs : List PyClass} (h : wfStore ⟨cs⟩ = true) {i : Nat} {c : PyClass}
    (hc : cs.get? i = some c) {b : Nat} (hb : b ∈ c.bases) : b < i := by
  have hi : i < cs.length := by
    rcases List.get?_eq_some.mp hc with ⟨hlt, _⟩
    exact hlt
  rw [wfStore] at h
  have h2 := List.all_eq_true.mp h i (List.mem_range.mpr hi)
  rw [classOK, hc] at h2
  exact of_decide_eq_true (List.all_eq_true.mp h2 b hb)

/-- Attribute lookup on an existing class ignores classes appended later
(the lookup only walks base pointers, which all precede the class). -/
theorem lookupAttr_append (cs : List PyClass) (x : PyClass) (hwf : wfStore ⟨cs⟩ = true)
    (fuel : Nat) : ∀ (cid : Nat) (k : String), cid < cs.length →
      lookupAttr (cs ++ [x]) fuel cid k = lookupAttr cs fuel cid k := by
  induction fuel with
  | zero => intro cid k _; rfl
  | succ fuel ih =>
    intro cid k h
    have hget : (cs ++ [x]).get? cid = cs.get? cid := List.get?_append h
    simp only [lookupAttr, hget]
    cases hc : cs.get? cid with
    | none => rfl
    | some c =>
      cases hfind : c.attrs.find? fun kv => kv.1 = k with
      | some kv => simp only [hfind]
      | none =>
        cases hbases : c.bases with
        | nil => simp only [hfind, hbases]
        | cons b bs =>
          have hb : b < cid := wfStore_lt hwf hc (by rw [hbases]; exact List.mem_cons_self b bs)
          simp only [hfind, hbases]
          exact ih b k (Nat.lt_trans hb h)

/-- The bases of a freshly created class all point into the old store. -/
theorem newClassOf_bases_lt (s : Store) (h : wfStore s = true)
    (muts : List (String × AVal)) (cid : Nat) (hcid : cid < s.classes.length) :
    ∀ b ∈ (newClassOf muts s cid).bases, b < s.classes.length := by
  intro b hb
  rw [newClassOf] at hb
  split at hb
  · cases hc : s.classes.get? cid with
    | none =>
      rw [hc] at hb
      simp at hb
    | some c =>
      rw [hc] at hb
      exact Nat.lt_trans (wfStore_lt h hc hb) hcid
  · simp at hb
    subst hb
    exact hcid

/-- Appending a class whose bases point into the old store preserves
well-formedness. -/
theorem wfStore_append (cs : List PyClass) (x : PyClass) (h : wfStore ⟨cs⟩ = true)
    (hx : ∀ b ∈ x.bases, b < cs.length) : wfStore ⟨cs ++ [x]⟩ = true := by
  rw [wfStore, List.all_eq_true]
  intro i hi
  have hi2 : i < cs.length + 1 := by
    have := List.mem_range.mp hi
    simpa using this
  rcases Nat.lt_succ_iff_lt_or_eq.mp hi2 with hlt | heq
  · rw [wfStore] at h
    have h2 := List.all_eq_true.mp h i (List.mem_range.mpr hlt)
    rw [classOK, List.get?_append hlt]
    rw [classOK] at h2
    exact h2
  · subst heq
    have hgl : (cs ++ [x]).get? cs.length = some x := List.get?_concat_length cs x
    rw [classOK, hgl, List.all_eq_true]
    intro b hb
    exact decide_eq_true (hx b hb)

/-- A chain of `_generative` calls never changes the configuration
observed through any class already in the store (the lookup walks only
pre-existing classes, and calls only append). -/
theorem runCalls_preserves : ∀ (calls : List (Nat × List (String × AVal))) (s : Store),
    wfStore s = true → callsOK s.classes.length calls = true →
    ∀ c, c < s.classes.length → ∀ fuel k,
      lookupAttr (runCalls s calls).classes fuel c k = lookupAttr s.classes fuel c k
  | [], _, _, _, _, _, _, _ => rfl
  | (t, m) :: rest, s, hwf, hok, c, hc, fuel, k => by
    rw [callsOK, Bool.and_eq_true, decide_eq_true_iff] at hok
    obtain ⟨ht, hrest⟩ := hok
    have hwf1 : wfStore (generativeCall m s t).1 = true :=
      wfStore_append s.classes _ hwf (newClassOf_bases_lt s hwf m t ht)
    have hlen1 : (generativeCall m s t).1.classes.length = s.classes.length + 1 := by
      simp [generativeCall]
    have h1 := runCalls_preserves rest (generativeCall m s t).1 hwf1
      (by rw [hlen1]; exact hrest) c
      (by rw [hlen1]; exact Nat.lt_trans hc (Nat.lt_succ_self _)) fuel k
    rw [runCalls, h1]
    exact lookupAttr_append s.classes _ hwf fuel c k hc

/-- Claim C1: a combinator call returns a brand-new schema type (the
freshly allocated class, never an existing one), and any chain of
combinator calls — on the receiver, on types derived from it, or on any
other type — leaves every configuration attribute observed through every
pre-existing schema type exactly as it was: derivations are isolated. -/
theorem claim_C1 (s : Store) (hwf : wfStore s = true) :
    (∀ (muts : List (String × AVal)) (cid : Nat),
      (generativeCall muts s cid).2 = s.classes.length) ∧
    (∀ calls, callsOK s.classes.length calls = true →
      ∀ c, c < s.classes.length → ∀ fuel k,
        lookupAttr (runCalls s calls).classes fuel c k = lookupAttr s.classes fuel c k) :=
  ⟨fun _ _ => rfl,
   fun calls hok c hc fuel k => runCalls_preserves calls s hwf hok c hc fuel k⟩

/-- Claim C1, witness: the demo chain — `Base.named('a')`, then
`using(optional=True)` on the derived type, then `Base.named('b')` —
leaves every attribute of the original `Base` unobservable-ly intact
(here its `name`). -/
theorem claim_C1_witness :
    lookupAttr (runCalls demoStore demoCalls).classes 4 0 "name"
      = lookupAttr demoStore.classes 4 0 "name" :=
  (claim_C1 demoStore (by decide)).2 demoCalls (by decide) 0 (by decide) 4 "name"

/-- `Nat.digitChar` renders a digit whose value is the digit. -/
theorem dval_digitChar : ∀ d, d < 10 → dval (Nat.digitChar d) = d := by decide

/-- `Nat.digitChar` of a digit is an ASCII digit. -/
theorem isAsciiDigit_digitChar : ∀ d, d < 10 → isAsciiDigit (Nat.digitChar d) = true := by
  decide

/-- An ASCII digit's value is at most 9. -/
theorem dval_le_9 (c : Char) (h : isAsciiDigit c = true) : dval c ≤ 9 := by
  rw [isAsciiDigit, Bool.and_eq_true, decide_eq_true_iff, decide_eq_true_iff] at h
  rw [dval]
  omega

/-- Python whitespace characters have one of six code points. -/
theorem isPySpace_toNat (c : Char) (h : isPySpace c = true) :
    c.toNat = 32 ∨ c.toNat = 9 ∨ c.toNat = 10 ∨ c.toNat = 13 ∨
      c.toNat = 11 ∨ c.toNat = 12 := by
  rw [isPySpace] at h
  simp only [Bool.or_eq_true, decide_eq_true_iff] at h
  rcases h with ((((h | h) | h) | h) | h) | h <;> subst h <;> decide

/-- ASCII digits are not Python whitespace. -/
theorem not_isPySpace_of_digit (c : Char) (h : isAsciiDigit c = true) :
    isPySpace c = false := by
  rw [isAsciiDigit, Bool.and_eq_true, decide_eq_true_iff, decide_eq_true_iff] at h
  cases hps : isPySpace c with
  | false => rfl
  | true =>
    exfalso
    rcases isPySpace_toNat c hps with h2 | h2 | h2 | h2 | h2 | h2 <;> omega

/-- Folding the digit accumulator from `a` contributes `a` shifted by
the digit count. -/
theorem digitsVal_foldl : ∀ (ds : PyStr) (a : Nat),
    ds.foldl (fun x c => 10 * x + dval c) a = a * 10 ^ ds.length + digitsVal ds
  | [], a => by simp [digitsVal]
  | c :: ds, a => by
    have h1 := digitsVal_foldl ds (10 * a + dval c)
    have h2 := digitsVal_foldl ds (10 * 0 + dval c)
    simp only [List.foldl_cons, List.length_cons]
    rw [h1]
    have hval : digitsVal (c :: ds) = (10 * 0 + dval c) * 10 ^ ds.length + digitsVal ds := by
      rw [digitsVal, List.foldl_cons]
      exact h2
    rw [hval, pow_succ]
    ring

/-- Peeling the first digit off a digit string's value. -/
theorem digitsVal_cons (c : Char) (ds : PyStr) :
    digitsVal (c :: ds) = dval c * 10 ^ ds.length + digitsVal ds := by
  rw [digitsVal, List.foldl_cons]
  rw [digitsVal_foldl ds (10 * 0 + dval c)]
  ring_nf

/-- Appending a last digit multiplies the value by ten and adds it. -/
theorem digitsVal_append_last (ds : PyStr) (c : Char) :
    digitsVal (ds ++ [c]) = 10 * digitsVal ds + dval c := by
  rw [digitsVal, List.foldl_append]
  rfl

/-- The value of a digit string is bounded by ten to its length. -/
theorem digitsVal_lt : ∀ ds : PyStr, (∀ c ∈ ds, isAsciiDigit c = true) →
    digitsVal ds < 10 ^ ds.length
  | [], _ => by simp [digitsVal]
  | c :: t, h => by
    have hc := dval_le_9 c (h c (List.mem_cons_self c t))
    have ht := digitsVal_lt t (fun x hx => h x (List.mem_cons_of_mem c hx))
    rw [digitsVal_cons, List.length_cons, pow_succ]
    nlinarith [pow_pos (show 0 < 10 by decide) t.length]

/-- Rendering then revaluing a natural number is the identity. -/
theorem digitsVal_natToDigitsRev : ∀ n : Nat, digitsVal (natToDigitsRev n).reverse = n := by
  intro n
  induction n using Nat.strong_induction_on with
  | _ n ih =>
    by_cases h : n = 0
    · subst h
      rw [natToDigitsRev, dif_pos rfl]
      rfl
    · rw [natToDigitsRev, dif_neg h, List.reverse_cons, digitsVal_append_last,
        ih (n / 10) (Nat.div_lt_self (Nat.pos_of_ne_zero h) (by decide)),
        dval_digitChar (n % 10) (Nat.mod_lt n (by decide))]
      omega

/-- Every character of `natToDigitsRev` is an ASCII digit. -/
theorem natToDigitsRev_digits : ∀ n : Nat, ∀ c ∈ natToDigitsRev n, isAsciiDigit c = true := by
  intro n
  induction n using Nat.strong_induction_on with
  | _ n ih =>
    by_cases h : n = 0
    · subst h
      rw [natToDigitsRev, dif_pos rfl]
      intro c hc
      cases hc
    · rw [natToDigitsRev, dif_neg h]
      intro c hc
      rcases List.mem_cons.mp hc with hc | hc
      · subst hc
        exact isAsciiDigit_digitChar (n % 10) (Nat.mod_lt n (by decide))
      · exact ih (n / 10) (Nat.div_lt_self (Nat.pos_of_ne_zero h) (by decide)) c hc

/-- Every character of `natRender` is an ASCII digit. -/
theorem natRender_digits (n : Nat) : ∀ c ∈ natRender n, isAsciiDigit c = true := by
  rw [natRender]
  by_cases h : n = 0
  · rw [if_pos h]
    intro c hc
    rcases List.mem_singleton.mp hc with rfl
    decide
  · rw [if_neg h]
    intro c hc
    exact natToDigitsRev_digits n c (List.mem_reverse.mp hc)

/-- The decimal rendering of a natural number evaluates to it. -/
theorem digitsVal_natRender (n : Nat) : digitsVal (natRender n) = n := by
  rw [natRender]
  by_cases h : n = 0
  · rw [if_pos h, h]
    rfl
  · rw [if_neg h]
    exact digitsVal_natToDigitsRev n

/-- Decimal renderings are never empty. -/
theorem natRender_ne_nil (n : Nat) : natRender n ≠ [] := by
  rw [natRender]
  by_cases h : n = 0
  · rw [if_pos h]
    exact List.cons_ne_nil _ _
  · rw [if_neg h]
    rw [natToDigitsRev, dif_neg h, List.reverse_cons]
    exact List.append_ne_nil_of_right_ne_nil _ (List.cons_ne_nil _ _)

/-- A number below `10 ^ k` renders in at most `k` digits. -/
theorem natToDigitsRev_length_le : ∀ (k n : Nat), n < 10 ^ k →
    (natToDigitsRev n).length ≤ k
  | k, 0, _ => by
    rw [natToDigitsRev, dif_pos rfl]
    exact Nat.zero_le k
  | 0, n + 1, h => by
    exfalso
    simp at h
  | k + 1, n + 1, h => by
    rw [natToDigitsRev, dif_neg (Nat.succ_ne_zero n), List.length_cons]
    have hd : (n + 1) / 10 < 10 ^ k := by
      rw [Nat.div_lt_iff_lt_mul (by decide : 0 < 10)]
      calc n + 1 < 10 ^ (k + 1) := h
        _ = 10 ^ k * 10 := by rw [pow_succ]
    exact Nat.succ_le_succ (natToDigitsRev_length_le k ((n + 1) / 10) hd)

/-- `natRender` of a number below `10 ^ k` (with `k ≥ 1`) has at most
`k` digits. -/
theorem natRender_length_le (k n : Nat) (hk : 1 ≤ k) (h : n < 10 ^ k) :
    (natRender n).length ≤ k := by
  rw [natRender]
  by_cases h0 : n = 0
  · rw [if_pos h0]
    simpa using hk
  · rw [if_neg h0, List.length_reverse]
    exact natToDigitsRev_length_le k n h

/-- Zero-padding to a width the string fits in yields that width
exactly. -/
theorem leftPad_length (k : Nat) (s : PyStr) (h : s.length ≤ k) :
    (leftPad k s).length = k := by
  rw [leftPad, List.length_append, List.length_replicate]
  omega

/-- Zero-padding a digit string keeps every character a digit. -/
theorem leftPad_digits (k : Nat) (s : PyStr) (h : ∀ c ∈ s, isAsciiDigit c = true) :
    ∀ c ∈ leftPad k s, isAsciiDigit c = true := by
  intro c hc
  rcases List.mem_append.mp hc with hc | hc
  · rw [(List.eq_of_mem_replicate hc : c = '0')]
    decide
  · exact h c hc

/-- Leading zeros do not change a digit string's value. -/
theorem digitsVal_replicate_zero : ∀ m : Nat, digitsVal (List.replicate m '0') = 0
  | 0 => rfl
  | m + 1 => by
    rw [List.replicate_succ, digitsVal_cons, digitsVal_replicate_zero m]
    rw [show dval '0' = 0 from rfl]
    simp

/-- Zero-padding does not change a digit string's value. -/
theorem digitsVal_leftPad (k : Nat) (s : PyStr) : digitsVal (leftPad k s) = digitsVal s := by
  rw [leftPad, digitsVal, List.foldl_append]
  rw [show List.foldl (fun x c => 10 * x + dval c) 0 (List.replicate (k - s.length) '0')
        = digitsVal (List.replicate (k - s.length) '0') from rfl]
  rw [digitsVal_replicate_zero]
  rfl

/-- The two-digit field rendering: length, digits, value. -/
theorem pad2_spec (n : Nat) (h : n ≤ 99) :
    (pad2 n).length = 2 ∧ (∀ c ∈ pad2 n, isAsciiDigit c = true) ∧ digitsVal (pad2 n) = n := by
  refine ⟨?_, ?_, ?_⟩
  · exact leftPad_length 2 _ (natRender_length_le 2 n (by decide) (by omega))
  · exact leftPad_digits 2 _ (natRender_digits n)
  · rw [pad2, digitsVal_leftPad, digitsVal_natRender]

/-- The four-digit field rendering: length, digits, value. -/
theorem pad4_spec (n : Nat) (h : n ≤ 9999) :
    (pad4 n).length = 4 ∧ (∀ c ∈ pad4 n, isAsciiDigit c = true) ∧ digitsVal (pad4 n) = n := by
  refine ⟨?_, ?_, ?_⟩
  · exact leftPad_length 4 _ (natRender_length_le 4 n (by decide) (by omega))
  · exact leftPad_digits 4 _ (natRender_digits n)
  · rw [pad4, digitsVal_leftPad, digitsVal_natRender]

/-- `takeWhile`/`dropWhile` split exactly at the first failing
character. -/
theorem span_append_stop (p : Char → Bool) :
    ∀ (xs : List Char) (y : Char) (ys : List Char),
      (∀ c ∈ xs, p c = true) → p y = false →
      (xs ++ y :: ys).takeWhile p = xs ∧ (xs ++ y :: ys).dropWhile p = y :: ys
  | [], y, ys, _, hy => by
    simp [List.takeWhile_cons, List.dropWhile_cons, hy]
  | x :: xs, y, ys, hxs, hy => by
    have hx := hxs x (List.mem_cons_self x xs)
    have ih := span_append_stop p xs y ys (fun c hc => hxs c (List.mem_cons_of_mem x hc)) hy
    simp [List.takeWhile_cons, List.dropWhile_cons, hx, ih.1, ih.2]

/-- `takeWhile`/`dropWhile` on an everywhere-true list take it whole. -/
theorem span_all (p : Char → Bool) :
    ∀ xs : List Char, (∀ c ∈ xs, p c = true) →
      xs.takeWhile p = xs ∧ xs.dropWhile p = []
  | [], _ => ⟨rfl, rfl⟩
  | x :: xs, h => by
    have hx := h x (List.mem_cons_self x xs)
    have ih := span_all p xs (fun c hc => h c (List.mem_cons_of_mem x hc))
    simp [List.takeWhile_cons, List.dropWhile_cons, hx, ih.1, ih.2]

/-- `dropWhile` is the identity when no character satisfies the
predicate. -/
theorem dropWhile_eq_self_of_none (p : Char → Bool) :
    ∀ l : List Char, (∀ c ∈ l, p c = false) → l.dropWhile p = l
  | [], _ => rfl
  | c :: t, h => by
    simp [List.dropWhile_cons, h c (List.mem_cons_self c t)]

/-- Stripping a string without Python whitespace is the identity. -/
theorem pstrip_no_space (s : PyStr) (h : ∀ c ∈ s, isPySpace c = false) : pstrip s = s := by
  rw [pstrip, dropWhile_eq_self_of_none _ s h, dropWhile_eq_self_of_none, List.reverse_reverse]
  intro c hc
  exact h c (List.mem_reverse.mp hc)

/-- `dropWhile` is idempotent. -/
theorem dropWhile_idem (p : Char → Bool) (l : List Char) :
    (l.dropWhile p).dropWhile p = l.dropWhile p := by
  have h := List.head?_dropWhile_not p l
  cases hd : l.dropWhile p with
  | nil => rfl
  | cons c t =>
    rw [hd] at h
    simp only [List.head?_cons] at h
    simp [List.dropWhile_cons, h]

/-- `dropWhile` yields a suffix. -/
theorem dropWhile_suffix (p : Char → Bool) : ∀ l : List Char, l.dropWhile p <:+ l
  | [] => List.suffix_refl []
  | c :: t => by
    rw [List.dropWhile_cons]
    by_cases hc : p c
    · rw [if_pos hc]
      exact (dropWhile_suffix p t).trans (List.suffix_cons c t)
    · rw [if_neg hc]

/-- Python `strip` is idempotent. -/
theorem pstrip_idem (s : PyStr) : pstrip (pstrip s) = pstrip s := by
  set p := isPySpace with hp
  set m := s.dropWhile p with hm
  set v := m.reverse.dropWhile p with hv
  have hps : pstrip s = v.reverse := rfl
  have hstep1 : v.reverse.dropWhile p = v.reverse := by
    cases hvr : v.reverse with
    | nil => rfl
    | cons c t =>
      have hpref : v.reverse <+: m := by
        have hsuf : v <:+ m.reverse := by
          rw [hv]
          exact dropWhile_suffix p m.reverse
        have := List.reverse_prefix.mpr hsuf
        rwa [List.reverse_reverse] at this
      rcases hpref with ⟨rest, hrest⟩
      rw [hvr] at hrest
      have hhead := List.head?_dropWhile_not p s
      rw [← hm] at hhead
      rw [← hrest] at hhead
      simp only [List.cons_append, List.head?_cons] at hhead
      simp [List.dropWhile_cons, hhead]
  rw [hps, pstrip, hstep1, List.reverse_reverse]
  rw [hv, dropWhile_idem, ← hv]

/-- `int()` re-parses the decimal rendering of a natural number. -/
theorem parseDigits_natRender (n : Nat) : parseDigits (natRender n) = some n := by
  have h1 : (natRender n).isEmpty = false := by
    cases he : (natRender n).isEmpty with
    | false => rfl
    | true => exact absurd (List.isEmpty_iff.mp he) (natRender_ne_nil n)
  have h2 : (natRender n).all isAsciiDigit = true :=
    List.all_eq_true.mpr (natRender_digits n)
  rw [parseDigits, h1, h2]
  simp [digitsVal_natRender]

/-- `unicode()` of an integer contains no whitespace. -/
theorem intRender_no_space (z : Int) : ∀ c ∈ intRender z, isPySpace c = false := by
  rw [intRender]
  by_cases hz : z < 0
  · rw [if_pos hz]
    intro c hc
    rcases List.mem_cons.mp hc with rfl | hc
    · decide
    · exact not_isPySpace_of_digit c (natRender_digits _ c hc)
  · rw [if_neg hz]
    intro c hc
    exact not_isPySpace_of_digit c (natRender_digits _ c hc)

/-- `unicode()` of an integer is never empty. -/
theorem intRender_ne_nil (z : Int) : intRender z ≠ [] := by
  rw [intRender]
  by_cases hz : z < 0
  · rw [if_pos hz]
    exact List.cons_ne_nil _ _
  · rw [if_neg hz]
    exact natRender_ne_nil _

/-- An ASCII digit is not the plus sign. -/
theorem digit_ne_plus (c : Char) (h : isAsciiDigit c = true) : ¬ c = '+' := by
  intro hc
  rw [hc] at h
  exact absurd h (by decide)

/-- An ASCII digit is not the minus sign. -/
theorem digit_ne_minus (c : Char) (h : isAsciiDigit c = true) : ¬ c = '-' := by
  intro hc
  rw [hc] at h
  exact absurd h (by decide)

/-- `int()` re-parses `unicode()` of any integer to the same value. -/
theorem integerBody_intRender (z : Int) : integerBody (intRender z) = some (.vint z) := by
  rw [integerBody]
  simp only [pstrip_no_space _ (intRender_no_space z)]
  by_cases hz : z < 0
  · rw [intRender, if_pos hz]
    have hval : -((z.natAbs : Int)) = z := by omega
    simp only [List.isEmpty_cons, Bool.false_eq_true, if_false, List.headD_cons,
      List.tail_cons, if_neg (by decide : ¬ ('-' = '+')), eq_self_iff_true, if_true,
      parseDigits_natRender, Option.map_some']
    rw [show Int.ofNat z.natAbs = ((z.natAbs : Int)) from rfl, hval]
  · rw [intRender, if_neg hz]
    obtain ⟨c, rest, hcr⟩ := List.exists_cons_of_ne_nil (natRender_ne_nil z.natAbs)
    have hcdig : isAsciiDigit c = true := by
      apply natRender_digits z.natAbs
      rw [hcr]
      exact List.mem_cons_self c rest
    have hval : ((z.natAbs : Int)) = z := by omega
    rw [hcr]
    simp only [List.isEmpty_cons, Bool.false_eq_true, if_false, List.headD_cons,
      if_neg (digit_ne_plus c hcdig), if_neg (digit_ne_minus c hcdig)]
    rw [← hcr, parseDigits_natRender]
    simp only [Option.map_some']
    rw [show Int.ofNat z.natAbs = ((z.natAbs : Int)) from rfl, hval]

/-- No month has more than 31 days. -/
theorem daysInMonth_le_31 (y m : Nat) : daysInMonth y m ≤ 31 := by
  rw [daysInMonth]
  split
  · split <;> decide
  · split <;> decide

/-- The rendered date is all digits and dashes, hence never blank. -/
theorem renderDate_no_space (y m d : Nat) : ∀ c ∈ renderDate y m d, isPySpace c = false := by
  intro c hc
  rw [renderDate] at hc
  rcases List.mem_append.mp hc with hc | hc
  · exact not_isPySpace_of_digit c (leftPad_digits 4 _ (natRender_digits y) c hc)
  · rcases List.mem_cons.mp hc with rfl | hc
    · decide
    · rcases List.mem_append.mp hc with hc | hc
      · exact not_isPySpace_of_digit c (leftPad_digits 2 _ (natRender_digits m) c hc)
      · rcases List.mem_cons.mp hc with rfl | hc
        · decide
        · exact not_isPySpace_of_digit c (leftPad_digits 2 _ (natRender_digits d) c hc)

/-- `strftime`'s output re-parses under `strptime` to the same date. -/
theorem parseDate_renderDate (y m d : Nat) (h1 : 1 ≤ y) (h2 : y ≤ 9999)
    (h3 : 1 ≤ m) (h4 : m ≤ 12) (h5 : 1 ≤ d) (h6 : d ≤ daysInMonth y m) :
    parseDate (renderDate y m d) = some (y, m, d) := by
  obtain ⟨hyl, hyd, hyv⟩ := pad4_spec y h2
  obtain ⟨hml, hmd, hmv⟩ := pad2_spec m (by omega)
  obtain ⟨hdl, hdd, hdv⟩ := pad2_spec d (by have := daysInMonth_le_31 y m; omega)
  have hdash : isAsciiDigit '-' = false := by decide
  have hs1 := span_append_stop isAsciiDigit (pad4 y) '-' (pad2 m ++ '-' :: pad2 d) hyd hdash
  have hs2 := span_append_stop isAsciiDigit (pad2 m) '-' (pad2 d) hmd hdash
  have hs3 := span_all isAsciiDigit (pad2 d) hdd
  rw [parseDate, renderDate]
  simp only [hs1.1, hs1.2, hs2.1, hs2.2, hs3.1, hs3.2, hyl, hml, hdl, hyv, hmv, hdv]
  simp [h1, h3, h4, h5, h6]

/-- Inversion of `parseDate`: a parsed date satisfies the constructor's
range constraints, and the four-digit year pattern bounds the year. -/
theorem parseDate_sound (s : PyStr) (y m d : Nat) (h : parseDate s = some (y, m, d)) :
    (1 ≤ y ∧ y ≤ 9999) ∧ (1 ≤ m ∧ m ≤ 12) ∧ (1 ≤ d ∧ d ≤ daysInMonth y m) := by
  have hbound := digitsVal_lt (s.takeWhile isAsciiDigit)
    (fun c hc => List.mem_takeWhile_imp hc)
  rw [parseDate] at h
  repeat' split at h
  any_goals exact Option.noConfusion h
  injection h with h2
  simp only [Prod.mk.injEq] at h2
  obtain ⟨hy, hm, hd⟩ := h2
  subst hy
  subst hm
  subst hd
  have hlen4 : (s.takeWhile isAsciiDigit).length = 4 := by omega
  rw [hlen4] at hbound
  norm_num at hbound
  refine ⟨⟨?_, ?_⟩, ⟨?_, ?_⟩, ⟨?_, ?_⟩⟩ <;> omega

/-- The rendered datetime is digits and separators, hence never blank. -/
theorem renderDatetime_no_space (y mo d h mi s : Nat) :
    ∀ c ∈ renderDatetime y mo d h mi s, isPySpace c = false := by
  intro c hc
  rw [renderDatetime] at hc
  rcases List.mem_append.mp hc with hc | hc
  · exact renderDate_no_space y mo d c hc
  · rcases List.mem_cons.mp hc with rfl | hc
    · decide
    · rcases List.mem_append.mp hc with hc | hc
      · exact not_isPySpace_of_digit c (leftPad_digits 2 _ (natRender_digits h) c hc)
      · rcases List.mem_cons.mp hc with rfl | hc
        · decide
        · rcases List.mem_append.mp hc with hc | hc
          · exact not_isPySpace_of_digit c (leftPad_digits 2 _ (natRender_digits mi) c hc)
          · rcases List.mem_cons.mp hc with rfl | hc
            · decide
            · exact not_isPySpace_of_digit c (leftPad_digits 2 _ (natRender_digits s) c hc)

/-- `strftime`'s datetime output re-parses under `strptime` to the same
six components. -/
theorem parseDatetime_renderDatetime (y mo d h mi s : Nat) (h1 : 1 ≤ y) (h2 : y ≤ 9999)
    (h3 : 1 ≤ mo) (h4 : mo ≤ 12) (h5 : 1 ≤ d) (h6 : d ≤ daysInMonth y mo)
    (h7 : h ≤ 23) (h8 : mi ≤ 59) (h9 : s ≤ 59) :
    parseDatetime (renderDatetime y mo d h mi s) = some (y, mo, d, h, mi, s) := by
  obtain ⟨hyl, hyd, hyv⟩ := pad4_spec y h2
  obtain ⟨hml, hmd, hmv⟩ := pad2_spec mo (by omega)
  obtain ⟨hdl, hdd, hdv⟩ := pad2_spec d (by have := daysInMonth_le_31 y mo; omega)
  obtain ⟨hhl, hhd, hhv⟩ := pad2_spec h (by omega)
  obtain ⟨hil, hid, hiv⟩ := pad2_spec mi (by omega)
  obtain ⟨hsl, hsd, hsv⟩ := pad2_spec s (by omega)
  have hdash : isAsciiDigit '-' = false := by decide
  have hT : isAsciiDigit 'T' = false := by decide
  have hcolon : isAsciiDigit ':' = false := by decide
  have hs1 := span_append_stop isAsciiDigit (pad4 y) '-'
    (pad2 mo ++ '-' :: (pad2 d ++ 'T' :: (pad2 h ++ ':' :: (pad2 mi ++ ':' :: pad2 s))))
    hyd hdash
  have hs2 := span_append_stop isAsciiDigit (pad2 mo) '-'
    (pad2 d ++ 'T' :: (pad2 h ++ ':' :: (pad2 mi ++ ':' :: pad2 s))) hmd hdash
  have hs3 := span_append_stop isAsciiDigit (pad2 d) 'T'
    (pad2 h ++ ':' :: (pad2 mi ++ ':' :: pad2 s)) hdd hT
  have hs4 := span_append_stop isAsciiDigit (pad2 h) ':'
    (pad2 mi ++ ':' :: pad2 s) hhd hcolon
  have hs5 := span_append_stop isAsciiDigit (pad2 mi) ':' (pad2 s) hid hcolon
  have hs6 := span_all isAsciiDigit (pad2 s) hsd
  have hr : renderDatetime y mo d h mi s
      = pad4 y ++ '-' ::
          (pad2 mo ++ '-' :: (pad2 d ++ 'T' :: (pad2 h ++ ':' :: (pad2 mi ++ ':' :: pad2 s)))) := by
    rw [renderDatetime, renderDate]
    simp [List.append_assoc]
  rw [parseDatetime, hr]
  simp only [hs1.1, hs1.2, hs2.1, hs2.2, hs3.1, hs3.2, hs4.1, hs4.2, hs5.1, hs5.2,
    hs6.1, hs6.2, hyl, hml, hdl, hhl, hil, hsl, hyv, hmv, hdv, hhv, hiv, hsv]
  simp [h1, h3, h4, h5, h6, h7, h8, h9]

/-- Inversion of `parseDatetime`: range constraints of the parsed
components. -/
theorem parseDatetime_sound (str : PyStr) (y mo d h mi s : Nat)
    (hp : parseDatetime str = some (y, mo, d, h, mi, s)) :
    ((1 ≤ y ∧ y ≤ 9999) ∧ (1 ≤ mo ∧ mo ≤ 12) ∧ (1 ≤ d ∧ d ≤ daysInMonth y mo)) ∧
      (h ≤ 23 ∧ mi ≤ 59 ∧ s ≤ 59) := by
  have hbound := digitsVal_lt (str.takeWhile isAsciiDigit)
    (fun c hc => List.mem_takeWhile_imp hc)
  rw [parseDatetime] at hp
  repeat' split at hp
  any_goals exact Option.noConfusion hp
  injection hp with h2
  simp only [Prod.mk.injEq] at h2
  obtain ⟨hy, hm, hd, hh, hi, hs⟩ := h2
  subst hy
  subst hm
  subst hd
  subst hh
  subst hi
  subst hs
  have hlen4 : (str.takeWhile isAsciiDigit).length = 4 := by omega
  rw [hlen4] at hbound
  norm_num at hbound
  refine ⟨⟨⟨?_, ?_⟩, ⟨?_, ?_⟩, ⟨?_, ?_⟩⟩, ⟨?_, ?_, ?_⟩⟩ <;> omega

/-- A non-empty list is not `isEmpty`. -/
theorem isEmpty_false_of_ne_nil (l : PyStr) (h : l ≠ []) : l.isEmpty = false := by
  cases he : l.isEmpty with
  | false => rfl
  | true => exact absurd (List.isEmpty_iff.mp he) h

/-- `Boolean` deserializes only to the two boolean values. -/
theorem booleanBody_shape (s : PyStr) (v : Val) (h : booleanBody s = some v) :
    v = .vbool true ∨ v = .vbool false := by
  rw [booleanBody] at h
  split at h
  · exact Or.inl (Option.some.inj h).symm
  · split at h
    · exact Or.inr (Option.some.inj h).symm
    · exact Option.noConfusion h

/-- The scalar pipeline on a successfully parsed, non-blank input with
no apply functions and no validators: the parsed value becomes the
state, provisionally valid, with no errors. -/
theorem mkScalarRun_simple (o : ScalarOpts) (ho2 : o.applies = []) (ho3 : o.expects = [])
    (body : PyStr → Option Val) (s : PyStr) (v : Val)
    (hb : (pstrip s).isEmpty = false) (hv : body s = some v) (hnv : v ≠ .vnone) :
    mkScalarRun o body (.rstr s) = .mkS v (some true) [] := by
  rw [mkScalarRun]
  simp only [hb, Bool.false_eq_true, if_false, hv, ho2, List.foldl_nil]
  cases v <;> first
    | exact absurd rfl hnv
    | simp [runExpects, ho3]

/-- The `String` pipeline on non-blank input strips it and stores it. -/
theorem runString_eq (s : PyStr) (hb : (pstrip s).isEmpty = false) :
    run StringTy (.rstr s) = .mkS (.vstr (pstrip s)) (some true) [] := by
  rw [StringTy, run, mkScalarRun]
  simp [hb, stringBody, stripFn, runExpects]

/-- Round trip for the default `Boolean` type. -/
theorem roundtrip_boolean (s : PyStr)
    (h1 : errorsOf (run BooleanTy (.rstr s)) = [])
    (_h2 : exportInst (run BooleanTy (.rstr s)) ≠ .vnone) :
    ∃ out : PyStr,
      serializeInst BooleanTy (run BooleanTy (.rstr s)) = some (.rstr out) ∧
      exportInst (run BooleanTy (.rstr out)) = exportInst (run BooleanTy (.rstr s)) := by
  cases hb : (pstrip s).isEmpty with
  | true =>
    rw [BooleanTy, run, mkScalarRun] at h1
    simp [hb, errorsOf] at h1
  | false =>
    cases hbody : booleanBody s with
    | none =>
      rw [BooleanTy, run, mkScalarRun] at h1
      simp [hb, hbody, errorsOf] at h1
    | some v =>
      have hrun : run BooleanTy (.rstr s) = .mkS v (some true) [] := by
        rw [BooleanTy, run]
        exact mkScalarRun_simple _ rfl rfl _ _ _ hb hbody
          (by rcases booleanBody_shape s v hbody with rfl | rfl <;> intro hx <;>
            exact Val.noConfusion hx)
      rcases booleanBody_shape s v hbody with rfl | rfl
      · exact ⟨ps "true", by rw [hrun]; simp [BooleanTy, serializeInst, pyTruthy],
          by rw [hrun]; rfl⟩
      · exact ⟨ps "false", by rw [hrun]; simp [BooleanTy, serializeInst, pyTruthy],
          by rw [hrun]; rfl⟩

/-- Round trip for the default `String` type (strip is idempotent). -/
theorem roundtrip_string (s : PyStr)
    (h1 : errorsOf (run StringTy (.rstr s)) = [])
    (_h2 : exportInst (run StringTy (.rstr s)) ≠ .vnone) :
    ∃ out : PyStr,
      serializeInst StringTy (run StringTy (.rstr s)) = some (.rstr out) ∧
      exportInst (run StringTy (.rstr out)) = exportInst (run StringTy (.rstr s)) := by
  cases hb : (pstrip s).isEmpty with
  | true =>
    rw [StringTy, run, mkScalarRun] at h1
    simp [hb, errorsOf] at h1
  | false =>
    have hrun := runString_eq s hb
    refine ⟨pstrip s, by rw [hrun]; simp [StringTy, serializeInst, pyUnicode], ?_⟩
    have hb2 : (pstrip (pstrip s)).isEmpty = false := by
      rw [pstrip_idem]
      exact hb
    rw [runString_eq (pstrip s) hb2, hrun]
    rw [exportInst, exportInst, pstrip_idem]

/-- Round trip for the default `Integer` type. -/
theorem roundtrip_integer (s : PyStr)
    (h1 : errorsOf (run IntegerTy (.rstr s)) = [])
    (_h2 : exportInst (run IntegerTy (.rstr s)) ≠ .vnone) :
    ∃ out : PyStr,
      serializeInst IntegerTy (run IntegerTy (.rstr s)) = some (.rstr out) ∧
      exportInst (run IntegerTy (.rstr out)) = exportInst (run IntegerTy (.rstr s)) := by
  cases hb : (pstrip s).isEmpty with
  | true =>
    rw [IntegerTy, run, mkScalarRun] at h1
    simp [hb, errorsOf] at h1
  | false =>
    cases hbody : integerBody s with
    | none =>
      rw [IntegerTy, run, mkScalarRun] at h1
      simp [hb, hbody, errorsOf] at h1
    | some v =>
      have hshape : ∃ z : Int, v = .vint z := by
        rw [integerBody] at hbody
        split at hbody
        · exact Option.noConfusion hbody
        · split at hbody
          · rcases Option.map_eq_some'.mp hbody with ⟨n, _, rfl⟩
            exact ⟨Int.ofNat n, rfl⟩
          · split at hbody
            · rcases Option.map_eq_some'.mp hbody with ⟨n, _, rfl⟩
              exact ⟨-(Int.ofNat n), rfl⟩
            · rcases Option.map_eq_some'.mp hbody with ⟨n, _, rfl⟩
              exact ⟨Int.ofNat n, rfl⟩
      obtain ⟨z, rfl⟩ := hshape
      have hrun : run IntegerTy (.rstr s) = .mkS (.vint z) (some true) [] := by
        rw [IntegerTy, run]
        exact mkScalarRun_simple _ rfl rfl _ _ _ hb hbody (fun hx => Val.noConfusion hx)
      refine ⟨intRender z, by rw [hrun]; simp [IntegerTy, serializeInst, pyUnicode], ?_⟩
      have hb2 : (pstrip (intRender z)).isEmpty = false := by
        rw [pstrip_no_space _ (intRender_no_space z)]
        exact isEmpty_false_of_ne_nil _ (intRender_ne_nil z)
      have hrun2 : run IntegerTy (.rstr (intRender z)) = .mkS (.vint z) (some true) [] := by
        rw [IntegerTy, run]
        exact mkScalarRun_simple _ rfl rfl _ _ _ hb2 (integerBody_intRender z)
          (fun hx => Val.noConfusion hx)
      rw [hrun, hrun2]

/-- Round trip for the default `Date` type, on dates `strftime` accepts
(year at least 1900; CPython 2's `wrap_strftime` raises below that). -/
theorem roundtrip_date (s : PyStr) (y m d : Nat)
    (_h1 : errorsOf (run DateTy (.rstr s)) = [])
    (hex : exportInst (run DateTy (.rstr s)) = .vdate y m d)
    (hy : 1900 ≤ y) :
    ∃ out : PyStr,
      serializeInst DateTy (run DateTy (.rstr s)) = some (.rstr out) ∧
      exportInst (run DateTy (.rstr out)) = exportInst (run DateTy (.rstr s)) := by
  cases hb : (pstrip s).isEmpty with
  | true =>
    rw [DateTy, run, mkScalarRun] at hex
    simp [hb, exportInst] at hex
  | false =>
    cases hbody : dateBody s with
    | none =>
      rw [DateTy, run, mkScalarRun] at hex
      simp [hb, hbody, exportInst] at hex
    | some v =>
      rw [dateBody] at hbody
      cases hp : parseDate s with
      | none =>
        rw [hp] at hbody
        exact Option.noConfusion hbody
      | some t =>
        obtain ⟨y2, m2, d2⟩ := t
        rw [hp, Option.map_some'] at hbody
        obtain rfl := (Option.some.inj hbody).symm
        have hrun : run DateTy (.rstr s) = .mkS (.vdate y2 m2 d2) (some true) [] := by
          rw [DateTy, run]
          exact mkScalarRun_simple _ rfl rfl _ _ _ hb
            (by rw [dateBody, hp, Option.map_some']) (fun hx => Val.noConfusion hx)
        rw [hrun, exportInst] at hex
        obtain ⟨rfl, rfl, rfl⟩ : y = y2 ∧ m = m2 ∧ d = d2 := by
          simpa using hex.symm
        obtain ⟨⟨hc1, hc2⟩, ⟨hc3, hc4⟩, hc5, hc6⟩ := parseDate_sound s y m d hp
        refine ⟨renderDate y m d,
          by rw [hrun]; simp [DateTy, serializeInst, Nat.not_lt.mpr hy], ?_⟩
        have hne : renderDate y m d ≠ [] := by
          simp [renderDate]
        have hb2 : (pstrip (renderDate y m d)).isEmpty = false := by
          rw [pstrip_no_space _ (renderDate_no_space y m d)]
          exact isEmpty_false_of_ne_nil _ hne
        have hrun2 : run DateTy (.rstr (renderDate y m d))
            = .mkS (.vdate y m d) (some true) [] := by
          rw [DateTy, run]
          exact mkScalarRun_simple _ rfl rfl _ _ _ hb2
            (by rw [dateBody, parseDate_renderDate y m d hc1 hc2 hc3 hc4 hc5 hc6,
              Option.map_some'])
            (fun hx => Val.noConfusion hx)
        rw [hrun, hrun2]

/-- A `Date` instance holding a pre-1900 date cannot be serialized:
`wrap_strftime` raises `ValueError` in every CPython 2. -/
theorem serializeDate_pre1900 (s : PyStr) (y m d : Nat)
    (hex : exportInst (run DateTy (.rstr s)) = .vdate y m d) (hy : y < 1900) :
    serializeInst DateTy (run DateTy (.rstr s)) = none := by
  cases hb : (pstrip s).isEmpty with
  | true =>
    rw [DateTy, run, mkScalarRun] at hex
    simp [hb, exportInst] at hex
  | false =>
    cases hbody : dateBody s with
    | none =>
      rw [DateTy, run, mkScalarRun] at hex
      simp [hb, hbody, exportInst] at hex
    | some v =>
      rw [dateBody] at hbody
      cases hp : parseDate s with
      | none =>
        rw [hp] at hbody
        exact Option.noConfusion hbody
      | some t =>
        obtain ⟨y2, m2, d2⟩ := t
        rw [hp, Option.map_some'] at hbody
        obtain rfl := (Option.some.inj hbody).symm
        have hrun : run DateTy (.rstr s) = .mkS (.vdate y2 m2 d2) (some true) [] := by
          rw [DateTy, run]
          exact mkScalarRun_simple _ rfl rfl _ _ _ hb
            (by rw [dateBody, hp, Option.map_some']) (fun hx => Val.noConfusion hx)
        rw [hrun, exportInst] at hex
        obtain ⟨rfl, rfl, rfl⟩ : y = y2 ∧ m = m2 ∧ d = d2 := by
          simpa using hex.symm
        rw [hrun]
        simp [DateTy, serializeInst, hy]

/-- Round trip for the default `Datetime` type, on datetimes `strftime`
accepts (year at least 1900). -/
theorem roundtrip_datetime (str : PyStr) (y mo d h mi s : Nat)
    (_h1 : errorsOf (run DatetimeTy (.rstr str)) = [])
    (hex : exportInst (run DatetimeTy (.rstr str)) = .vdatetime y mo d h mi s)
    (hy : 1900 ≤ y) :
    ∃ out : PyStr,
      serializeInst DatetimeTy (run DatetimeTy (.rstr str)) = some (.rstr out) ∧
      exportInst (run DatetimeTy (.rstr out)) = exportInst (run DatetimeTy (.rstr str)) := by
  cases hb : (pstrip str).isEmpty with
  | true =>
    rw [DatetimeTy, run, mkScalarRun] at hex
    simp [hb, exportInst] at hex
  | false =>
    cases hbody : datetimeBody str with
    | none =>
      rw [DatetimeTy, run, mkScalarRun] at hex
      simp [hb, hbody, exportInst] at hex
    | some v =>
      rw [datetimeBody] at hbody
      cases hp : parseDatetime str with
      | none =>
        rw [hp] at hbody
        exact Option.noConfusion hbody
      | some t =>
        obtain ⟨y2, mo2, d2, h2, mi2, s2⟩ := t
        rw [hp, Option.map_some'] at hbody
        obtain rfl := (Option.some.inj hbody).symm
        have hrun : run DatetimeTy (.rstr str)
            = .mkS (.vdatetime y2 mo2 d2 h2 mi2 s2) (some true) [] := by
          rw [DatetimeTy, run]
          exact mkScalarRun_simple _ rfl rfl _ _ _ hb
            (by rw [datetimeBody, hp, Option.map_some']) (fun hx => Val.noConfusion hx)
        rw [hrun, exportInst] at hex
        obtain ⟨rfl, rfl, rfl, rfl, rfl, rfl⟩ :
            y = y2 ∧ mo = mo2 ∧ d = d2 ∧ h = h2 ∧ mi = mi2 ∧ s = s2 := by
          simpa using hex.symm
        obtain ⟨⟨⟨hc1, hc2⟩, ⟨hc3, hc4⟩, hc5, hc6⟩, hc7, hc8, hc9⟩ :=
          parseDatetime_sound str y mo d h mi s hp
        refine ⟨renderDatetime y mo d h mi s,
          by rw [hrun]; simp [DatetimeTy, serializeInst, Nat.not_lt.mpr hy], ?_⟩
        have hne : renderDatetime y mo d h mi s ≠ [] := by
          simp [renderDatetime, renderDate]
        have hb2 : (pstrip (renderDatetime y mo d h mi s)).isEmpty = false := by
          rw [pstrip_no_space _ (renderDatetime_no_space y mo d h mi s)]
          exact isEmpty_false_of_ne_nil _ hne
        have hrun2 : run DatetimeTy (.rstr (renderDatetime y mo d h mi s))
            = .mkS (.vdatetime y mo d h mi s) (some true) [] := by
          rw [DatetimeTy, run]
          exact mkScalarRun_simple _ rfl rfl _ _ _ hb2
            (by rw [datetimeBody,
              parseDatetime_renderDatetime y mo d h mi s hc1 hc2 hc3 hc4 hc5 hc6 hc7 hc8 hc9,
              Option.map_some'])
            (fun hx => Val.noConfusion hx)
        rw [hrun, hrun2]

/-- A `Datetime` instance holding a pre-1900 datetime cannot be
serialized: `wrap_strftime` raises `ValueError` in every CPython 2. -/
theorem serializeDatetime_pre1900 (str : PyStr) (y mo d h mi s : Nat)
    (hex : exportInst (run DatetimeTy (.rstr str)) = .vdatetime y mo d h mi s)
    (hy : y < 1900) :
    serializeInst DatetimeTy (run DatetimeTy (.rstr str)) = none := by
  cases hb : (pstrip str).isEmpty with
  | true =>
    rw [DatetimeTy, run, mkScalarRun] at hex
    simp [hb, exportInst] at hex
  | false =>
    cases hbody : datetimeBody str with
    | none =>
      rw [DatetimeTy, run, mkScalarRun] at hex
      simp [hb, hbody, exportInst] at hex
    | some v =>
      rw [datetimeBody] at hbody
      cases hp : parseDatetime str with
      | none =>
        rw [hp] at hbody
        exact Option.noConfusion hbody
      | some t =>
        obtain ⟨y2, mo2, d2, h2, mi2, s2⟩ := t
        rw [hp, Option.map_some'] at hbody
        obtain rfl := (Option.some.inj hbody).symm
        have hrun : run DatetimeTy (.rstr str)
            = .mkS (.vdatetime y2 mo2 d2 h2 mi2 s2) (some true) [] := by
          rw [DatetimeTy, run]
          exact mkScalarRun_simple _ rfl rfl _ _ _ hb
            (by rw [datetimeBody, hp, Option.map_some']) (fun hx => Val.noConfusion hx)
        rw [hrun, exportInst] at hex
        obtain ⟨rfl, rfl, rfl, rfl, rfl, rfl⟩ :
            y = y2 ∧ mo = mo2 ∧ d = d2 ∧ h = h2 ∧ mi = mi2 ∧ s = s2 := by
          simpa using hex.symm
        rw [hrun]
        simp [DatetimeTy, serializeInst, hy]

/-- Claim C6, counterexample.  `u"1800-01-01"` deserializes without
error to the present date 1800-01-01 (`strptime` accepts any four-digit
year), but serializing it raises `ValueError` in CPython 2
(`wrap_strftime` requires year >= 1900), so the round trip the claim
quantifies over fails by raising rather than reproducing the value. -/
theorem claim_C6_counterexample :
    errorsOf (run DateTy (.rstr (ps "1800-01-01"))) = [] ∧
    exportInst (run DateTy (.rstr (ps "1800-01-01"))) = .vdate 1800 1 1 ∧
    serializeInst DateTy (run DateTy (.rstr (ps "1800-01-01"))) = none := by
  refine ⟨rfl, rfl, ?_⟩
  rw [show run DateTy (.rstr (ps "1800-01-01"))
      = .mkS (.vdate 1800 1 1) (some true) [] from rfl]
  simp [DateTy, serializeInst]

/-- Claim C6 as amended: for `Boolean`, `String` and `Integer` in
default configuration, any raw string that deserializes without error
to a present value serializes to a string that deserializes back to the
very same typed value; for `Date` and `Datetime` the same holds
whenever the parsed year is at least 1900, while for earlier years —
which deserialization accepts — serialization raises (`ValueError` from
`strftime`), so no round trip exists there. -/
theorem claim_C6_amended :
    (∀ s : PyStr, errorsOf (run BooleanTy (.rstr s)) = [] →
      exportInst (run BooleanTy (.rstr s)) ≠ .vnone →
      ∃ out : PyStr,
        serializeInst BooleanTy (run BooleanTy (.rstr s)) = some (.rstr out) ∧
        exportInst (run BooleanTy (.rstr out)) = exportInst (run BooleanTy (.rstr s))) ∧
    (∀ s : PyStr, errorsOf (run StringTy (.rstr s)) = [] →
      exportInst (run StringTy (.rstr s)) ≠ .vnone →
      ∃ out : PyStr,
        serializeInst StringTy (run StringTy (.rstr s)) = some (.rstr out) ∧
        exportInst (run StringTy (.rstr out)) = exportInst (run StringTy (.rstr s))) ∧
    (∀ s : PyStr, errorsOf (run IntegerTy (.rstr s)) = [] →
      exportInst (run IntegerTy (.rstr s)) ≠ .vnone →
      ∃ out : PyStr,
        serializeInst IntegerTy (run IntegerTy (.rstr s)) = some (.rstr out) ∧
        exportInst (run IntegerTy (.rstr out)) = exportInst (run IntegerTy (.rstr s))) ∧
    (∀ (s : PyStr) (y m d : Nat), errorsOf (run DateTy (.rstr s)) = [] →
      exportInst (run DateTy (.rstr s)) = .vdate y m d → 1900 ≤ y →
      ∃ out : PyStr,
        serializeInst DateTy (run DateTy (.rstr s)) = some (.rstr out) ∧
        exportInst (run DateTy (.rstr out)) = exportInst (run DateTy (.rstr s))) ∧
    (∀ (s : PyStr) (y m d : Nat),
      exportInst (run DateTy (.rstr s)) = .vdate y m d → y < 1900 →
      serializeInst DateTy (run DateTy (.rstr s)) = none) ∧
    (∀ (str : PyStr) (y mo d h mi s : Nat),
      errorsOf (run DatetimeTy (.rstr str)) = [] →
      exportInst (run DatetimeTy (.rstr str)) = .vdatetime y mo d h mi s → 1900 ≤ y →
      ∃ out : PyStr,
        serializeInst DatetimeTy (run DatetimeTy (.rstr str)) = some (.rstr out) ∧
        exportInst (run DatetimeTy (.rstr out))
          = exportInst (run DatetimeTy (.rstr str))) ∧
    (∀ (str : PyStr) (y mo d h mi s : Nat),
      exportInst (run DatetimeTy (.rstr str)) = .vdatetime y mo d h mi s → y < 1900 →
      serializeInst DatetimeTy (run DatetimeTy (.rstr str)) = none) :=
  ⟨roundtrip_boolean, roundtrip_string, roundtrip_integer, roundtrip_date,
   serializeDate_pre1900, roundtrip_datetime, serializeDatetime_pre1900⟩

/-- Claim C6 (amended), witness: the round trip at the concrete inputs
`u"on"`, `u" hi "`, `u"-012"`, `u"2020-1-5"` and `u"2020-1-5T3:4:5"`,
and the raising serialization at `u"1800-01-01"` and
`u"1800-01-01T0:0:0"`. -/
theorem claim_C6_amended_witness :
    (∃ out : PyStr,
      serializeInst BooleanTy (run BooleanTy (.rstr (ps "on"))) = some (.rstr out) ∧
      exportInst (run BooleanTy (.rstr out))
        = exportInst (run BooleanTy (.rstr (ps "on")))) ∧
    (∃ out : PyStr,
      serializeInst StringTy (run StringTy (.rstr (ps " hi "))) = some (.rstr out) ∧
      exportInst (run StringTy (.rstr out))
        = exportInst (run StringTy (.rstr (ps " hi ")))) ∧
    (∃ out : PyStr,
      serializeInst IntegerTy (run IntegerTy (.rstr (ps "-012"))) = some (.rstr out) ∧
      exportInst (run IntegerTy (.rstr out))
        = exportInst (run IntegerTy (.rstr (ps "-012")))) ∧
    (∃ out : PyStr,
      serializeInst DateTy (run DateTy (.rstr (ps "2020-1-5"))) = some (.rstr out) ∧
      exportInst (run DateTy (.rstr out))
        = exportInst (run DateTy (.rstr (ps "2020-1-5")))) ∧
    serializeInst DateTy (run DateTy (.rstr (ps "1800-01-01"))) = none ∧
    (∃ out : PyStr,
      serializeInst DatetimeTy (run DatetimeTy (.rstr (ps "2020-1-5T3:4:5")))
        = some (.rstr out) ∧
      exportInst (run DatetimeTy (.rstr out))
        = exportInst (run DatetimeTy (.rstr (ps "2020-1-5T3:4:5")))) ∧
    serializeInst DatetimeTy (run DatetimeTy (.rstr (ps "1800-01-01T0:0:0"))) = none :=
  ⟨claim_C6_amended.1 (ps "on") rfl (fun hx => Val.noConfusion hx),
   claim_C6_amended.2.1 (ps " hi ") rfl (fun hx => Val.noConfusion hx),
   claim_C6_amended.2.2.1 (ps "-012") rfl (fun hx => Val.noConfusion hx),
   claim_C6_amended.2.2.2.1 (ps "2020-1-5") 2020 1 5 rfl rfl (by decide),
   claim_C6_amended.2.2.2.2.1 (ps "1800-01-01") 1800 1 1 rfl (by decide),
   claim_C6_amended.2.2.2.2.2.1 (ps "2020-1-5T3:4:5") 2020 1 5 3 4 5 rfl rfl (by decide),
   claim_C6_amended.2.2.2.2.2.2 (ps "1800-01-01T0:0:0") 1800 1 1 0 0 0 rfl (by decide)⟩

end Dictator
